import Mathlib

/-!
# The 433 MHz signal layer (`drivers/lib/signal.js`)

A shallow embedding of the `Signal` class and of the three module-level maps
`signals`, `registerLock` and `registerPromises`.

The JavaScript heap is made explicit as a `World`, one map per field: the
field `this.f` of the `Signal` object in slot `i` is `w.f i`, and a field of
the shared hardware handle of signal key `k` is indexed by `k`. Every timer
created by `setTimeout` is a slot of `timers`, every promise created by
`register` is a hardware register request, and every event a `Signal` emits is
appended to the `emitted` list of that object.
The program is single threaded, so each public method and each callback that
the environment fires (a raw payload, a timer, a hardware callback) is one
atomic `step`.

Modelling conventions:
* listeners attached to a `Signal`, the payload parser and the callbacks passed
  to `register` are observers: they return normally and do not call back into
  the class;
* `emit` always returns: every `Signal` is taken to have an `error` listener
  (an `EventEmitter` of the platform throws on an `error` event that nobody
  listens to);
* the hardware handle (`Homey.wireless('433').Signal`) fires each callback it
  is given at most once;
* the reactions of a settled promise are run in the same step as the action
  that queued them (the micro-task queue is drained before the next event);
* time is not measured: a timer is pending from `setTimeout` until the
  environment fires it, and the order of events is all that matters;
* numbers are integers or `NaN`; logging and the method `tx` are not
  modelled.
-/

namespace Signal433

/-! ## JavaScript values -/

/-- A JavaScript value, as far as the signal layer inspects one. An object
carries the value of its `constructor` property (by name) and its fields. -/
inductive JsVal where
  | undefined
  | null
  | bool (b : Bool)
  | num (n : Int)
  | nan
  | str (s : String)
  | obj (ctor : String) (props : List (String × JsVal))

/-- Truthiness of a value: what `if (v)` and `!v` test. -/
def JsVal.truthy : JsVal → Bool
  | .undefined => false
  | .null => false
  | .bool b => b
  | .num n => n != 0
  | .nan => false
  | .str s => s != ""
  | .obj _ _ => true

/-- The test `v.constructor === Object`, for a value that is not null or
undefined. -/
def JsVal.constructorIsObject : JsVal → Bool
  | .obj ctor _ => ctor == "Object"
  | _ => false

/-- Property read `v.name` on a record; a field that is absent reads as
`undefined`. -/
def JsVal.get (v : JsVal) (name : String) : JsVal :=
  match v with
  | .obj _ props => (props.lookup name).getD .undefined
  | _ => .undefined

/-- The result of `Number(x)` for a constructor argument `x`. -/
inductive JsNumber where
  | nan
  | num (n : Int)

/-- The expression `Number(debounceTime) || 0`. -/
def JsNumber.orZero : JsNumber → Int
  | .nan => 0
  | .num n => if n = 0 then 0 else n

/-- The expression `payload.join('')` on an array of numbers. -/
def join (payload : List Int) : String :=
  String.join (payload.map toString)

/-- Modelled from the spec: `SignalManager.bitArrayToString`, which belongs to
the host platform; it prints the raw bits as one string. -/
def bitArrayToString (payload : List Int) : String :=
  join payload

/-! ## The heap -/

/-- An event emitted on a `Signal` object. -/
inductive Emitted where
  | payload (payload : List Int)
  | data (data : JsVal)
  | payload_send (payload : List Int)
  | error (err : JsVal)

/-- Is this a `data` event. -/
def Emitted.isData : Emitted → Bool
  | .data _ => true
  | _ => false

/-- Is this a `payload` event. -/
def Emitted.isPayload : Emitted → Bool
  | .payload _ => true
  | _ => false

/-- Is this an `error` event. -/
def Emitted.isError : Emitted → Bool
  | .error _ => true
  | _ => false

/-- The body of a timer callback. -/
inductive TimerAction where
  | debounceDelete (inst : Nat) (payloadString : String)
  | instanceFlagOff (inst : Nat)
  | signalFlagOff (signalKey : String)

/-- A pending timer: `setTimeout(action, delay)`. -/
structure Timer where
  delay : Int
  action : TimerAction

/-- The state of a promise. -/
inductive PState where
  | pending
  | fulfilled (value : JsVal)
  | rejected (reason : JsVal)

/-- One invocation of the hardware `register` function, together with the
promise created around it: the handle it was invoked on and the object whose
`register` method made the call. -/
structure RegisterRequest where
  signalKey : String
  inst : Nat

/-- One call of `Signal.register`: the promise it chains on, the callback it
was given, the argument lists that callback has been invoked with and the
promise it returned. -/
structure RegisterCall where
  inst : Nat
  signalKey : String
  promise : Nat
  callback : List JsVal → JsVal
  invoked : List (List JsVal)
  returned : PState

/-- One call of `Signal.send`: the hardware `tx` request and the promise
returned to the caller. -/
structure SendCall where
  inst : Nat
  payload : List Int
  returned : PState

/-- The module state and the heap.

* `signals`, `registerLock`, `registerPromises`: the three module-level maps
  (`signals k` says whether the map has a handle for `k`);
* `payloadListeners` ... `signalManualDebounceTimeout`: the listeners attached to
  the shared handle of a key and the two fields `manualDebounce` stores on it;
* `signalKey` ... `emitted`: the fields of the `Signal` objects, by slot
  (`signalKey i = none` when slot `i` holds no object), and the events emitted
  on each object so far;
* `timers`: the pending timers by handle;
* `registerRequests`, `registerFired`: the invocations of the hardware
  `register` function, and the error argument its callback has fired with;
* `registerCalls`, `sendCalls`: the calls of `register` and `send` so far. -/
structure World where
  signals : String → Bool
  registerLock : String → Option (List Nat)
  registerPromises : String → Option Nat
  payloadListeners : String → List Nat
  payloadSendListeners : String → List Nat
  signalManualDebounceFlag : String → Bool
  signalManualDebounceTimeout : String → Option Nat
  signalKey : Nat → Option String
  payloadParser : Nat → List Int → JsVal
  debounceBuffer : Nat → String → Option Nat
  debounceTimeout : Nat → Int
  manualDebounceFlag : Nat → Bool
  manualDebounceTimeout : Nat → Option Nat
  emitted : Nat → List Emitted
  nextInstance : Nat
  timers : Nat → Option Timer
  nextTimer : Nat
  registerRequests : List RegisterRequest
  registerFired : Nat → Option JsVal
  registerCalls : List RegisterCall
  sendCalls : List SendCall

/-- The world when the module has just been loaded. -/
def World.init : World where
  signals := fun _ => false
  registerLock := fun _ => none
  registerPromises := fun _ => none
  payloadListeners := fun _ => []
  payloadSendListeners := fun _ => []
  signalManualDebounceFlag := fun _ => false
  signalManualDebounceTimeout := fun _ => none
  signalKey := fun _ => none
  payloadParser := fun _ _ => .undefined
  debounceBuffer := fun _ _ => none
  debounceTimeout := fun _ => 0
  manualDebounceFlag := fun _ => false
  manualDebounceTimeout := fun _ => none
  emitted := fun _ => []
  nextInstance := 0
  timers := fun _ => none
  nextTimer := 0
  registerRequests := []
  registerFired := fun _ => none
  registerCalls := []
  sendCalls := []

/-- The call `this.emit(ev)` on the object in slot `i`. -/
def emit (i : Nat) (ev : Emitted) (w : World) : World :=
  { w with emitted := Function.update w.emitted i (w.emitted i ++ [ev]) }

/-- The call `clearTimeout(handle)`. -/
def clearTimeout (handle : Option Nat) (timers : Nat → Option Timer) :
    Nat → Option Timer :=
  match handle with
  | none => timers
  | some h => Function.update timers h none

/-! ## The class -/

/-- The constructor `new Signal(signalKey, parser, debounceTime)`; the new
object takes slot `nextInstance`. When `signals` has no handle for the key, one
is created and `registerLock` gets an empty set for it; then the two listeners
are attached to the handle. -/
def construct (signalKey : String) (parser : Option (List Int → JsVal))
    (debounceTime : JsNumber) (w : World) : World :=
  let i := w.nextInstance
  { w with
    payloadParser := Function.update w.payloadParser i (parser.getD
      (fun payload => .obj "Object" [("payload", .str (bitArrayToString payload))]))
    debounceBuffer := Function.update w.debounceBuffer i (fun _ => none)
    debounceTimeout := Function.update w.debounceTimeout i debounceTime.orZero
    signalKey := Function.update w.signalKey i (some signalKey)
    manualDebounceFlag := Function.update w.manualDebounceFlag i false
    manualDebounceTimeout := Function.update w.manualDebounceTimeout i none
    emitted := Function.update w.emitted i []
    signals := Function.update w.signals signalKey true
    registerLock :=
      if w.signals signalKey then w.registerLock
      else Function.update w.registerLock signalKey (some [])
    payloadListeners := Function.update w.payloadListeners signalKey
      ((if w.signals signalKey then w.payloadListeners signalKey else []) ++ [i])
    payloadSendListeners := Function.update w.payloadSendListeners signalKey
      ((if w.signals signalKey then w.payloadSendListeners signalKey else []) ++ [i])
    signalManualDebounceFlag :=
      if w.signals signalKey then w.signalManualDebounceFlag
      else Function.update w.signalManualDebounceFlag signalKey false
    signalManualDebounceTimeout :=
      if w.signals signalKey then w.signalManualDebounceTimeout
      else Function.update w.signalManualDebounceTimeout signalKey none
    nextInstance := i + 1 }

/-- The method `debounce(payload)` of the object in slot `i`; the result is
the payload or `null`. -/
def debounce (i : Nat) (payload : List Int) (w : World) : Option (List Int) × World :=
  let payloadString := join payload
  if (w.debounceBuffer i payloadString).isNone then
    (some payload,
      { w with
        debounceBuffer := Function.update w.debounceBuffer i
          (Function.update (w.debounceBuffer i) payloadString (some w.nextTimer))
        timers := Function.update w.timers w.nextTimer
          (some ⟨w.debounceTimeout i, .debounceDelete i payloadString⟩)
        nextTimer := w.nextTimer + 1 })
  else (none, w)

/-- The test `!data || data.constructor !== Object || !data.id`. -/
def rejected (data : JsVal) : Bool :=
  !data.truthy || !data.constructorIsObject || !(data.get "id").truthy

/-- The test `!this.debounceTimeout > 0`: the negation binds first, so a
boolean is compared with zero. -/
def notTimeoutGtZero (debounceTimeout : Int) : Bool :=
  decide ((if debounceTimeout = 0 then (1 : Int) else 0) > 0)

/-- The listener that the constructor attaches to the `payload` event of the
shared handle, for the object in slot `i`. The copy
`Array.from(payloadData).map(Number)` of an array of numbers is the array
itself. -/
def payloadHandler (i : Nat) (payloadData : List Int) (w : World) : World :=
  match w.signalKey i with
  | none => w
  | some k =>
    if !w.manualDebounceFlag i && !w.signalManualDebounceFlag k then
      let payload := payloadData
      let w1 := emit i (.payload payload) w
      let r : Bool × World :=
        if notTimeoutGtZero (w1.debounceTimeout i) then (true, w1)
        else ((debounce i payload w1).1.isSome, (debounce i payload w1).2)
      if r.1 then
        let data := w.payloadParser i payload
        if rejected data then r.2 else emit i (.data data) r.2
      else r.2
    else w

/-- The state of the promise of register request `p`: `registerFired p` is
the error argument of the hardware callback once it has run, and the
callback rejects on a truthy error and resolves otherwise. -/
def promiseState (w : World) (p : Nat) : PState :=
  match w.registerFired p with
  | none => .pending
  | some err => if err.truthy then .rejected err else .fulfilled .undefined

/-- Is the promise still pending. -/
def PState.isPending : PState → Bool
  | .pending => true
  | _ => false

/-- The reactions `.then(() => callback(null, true)).catch(err => { callback(err); throw err; })`
of one `register` call, run when the promise it chains on has state `st`. -/
def react (st : PState) (c : RegisterCall) : RegisterCall :=
  if c.returned.isPending then
    match st with
    | .pending => c
    | .fulfilled _ =>
      { c with invoked := c.invoked ++ [[.null, .bool true]]
               returned := .fulfilled (c.callback [.null, .bool true]) }
    | .rejected err =>
      { c with invoked := c.invoked ++ [[err]]
               returned := .rejected err }
  else c

/-- The method `add` of a `Set`. -/
def setAdd (s : List Nat) (i : Nat) : List Nat :=
  if i ∈ s then s else s ++ [i]

/-- The method `register(callback)` of the object in slot `i`. -/
def register (i : Nat) (callback : Option (List JsVal → JsVal)) (w : World) : World :=
  match w.signalKey i with
  | none => w
  | some k =>
    match w.registerLock k with
    | none => w
    | some lock =>
      let cb := callback.getD (fun _ => JsVal.null)
      let w1 : World :=
        if lock.length = 0 then
          { w with
            registerRequests := w.registerRequests ++ [⟨k, i⟩]
            registerPromises := Function.update w.registerPromises k
              (some w.registerRequests.length) }
        else w
      let w2 : World :=
        { w1 with
          registerLock := Function.update w1.registerLock k (some (setAdd lock i)) }
      match w2.registerPromises k with
      | none => w2
      | some p =>
        { w2 with
          registerCalls := w2.registerCalls ++
            [react (promiseState w2 p) ⟨i, k, p, cb, [], .pending⟩] }

/-- The method `unregister()`: its first statement is `return`. -/
def unregister (_i : Nat) (w : World) : World :=
  w

/-- The method `manualDebounce(timeout, allListeners)` of the object in
slot `i`. -/
def manualDebounce (i : Nat) (timeout : Int) (allListeners : Bool) (w : World) : World :=
  match w.signalKey i with
  | none => w
  | some k =>
    if allListeners then
      { w with
        signalManualDebounceFlag := Function.update w.signalManualDebounceFlag k true
        signalManualDebounceTimeout :=
          Function.update w.signalManualDebounceTimeout k (some w.nextTimer)
        timers := Function.update (clearTimeout (w.signalManualDebounceTimeout k) w.timers)
          w.nextTimer (some ⟨timeout, .signalFlagOff k⟩)
        nextTimer := w.nextTimer + 1 }
    else
      { w with
        manualDebounceFlag := Function.update w.manualDebounceFlag i true
        manualDebounceTimeout := Function.update w.manualDebounceTimeout i (some w.nextTimer)
        timers := Function.update (clearTimeout (w.manualDebounceTimeout i) w.timers)
          w.nextTimer (some ⟨timeout, .instanceFlagOff i⟩)
        nextTimer := w.nextTimer + 1 }

/-- The method `send(payload)` of the object in slot `i`: the hardware `tx`
is requested and the promise is pending until its callback fires. -/
def send (i : Nat) (payload : List Int) (w : World) : World :=
  match w.signalKey i with
  | none => w
  | some _ =>
    { w with sendCalls := w.sendCalls ++ [⟨i, payload, .pending⟩] }

/-! ## Callbacks fired by the environment -/

/-- The shared handle of `signalKey` emits a raw `payload`: its listeners run
in the order they were attached. -/
def emitPayload (signalKey : String) (payloadData : List Int) (w : World) : World :=
  if w.signals signalKey then
    (w.payloadListeners signalKey).foldl (fun w i => payloadHandler i payloadData w) w
  else w

/-- The call `this.signal.emit('payload_send', payload)`: every listener
re-emits the event on its own object. -/
def emitPayloadSend (signalKey : String) (payload : List Int) (w : World) : World :=
  if w.signals signalKey then
    (w.payloadSendListeners signalKey).foldl (fun w i => emit i (.payload_send payload) w) w
  else w

/-- The timer with handle `h` fires. -/
def timerFires (h : Nat) (w : World) : World :=
  match w.timers h with
  | none => w
  | some t =>
    let w1 : World := { w with timers := Function.update w.timers h none }
    match t.action with
    | .debounceDelete i payloadString =>
      { w1 with
        debounceBuffer := Function.update w1.debounceBuffer i
          (Function.update (w1.debounceBuffer i) payloadString none) }
    | .instanceFlagOff i =>
      { w1 with manualDebounceFlag := Function.update w1.manualDebounceFlag i false }
    | .signalFlagOff k =>
      { w1 with
        signalManualDebounceFlag := Function.update w1.signalManualDebounceFlag k false }

/-- The hardware fires the callback of register request `n` with `err`. -/
def registerCallback (n : Nat) (err : JsVal) (w : World) : World :=
  match w.registerRequests[n]? with
  | none => w
  | some r =>
    match w.registerFired n with
    | some _ => w
    | none =>
      let w1 : World :=
        { w with registerFired := Function.update w.registerFired n (some err) }
      let w2 : World := if err.truthy then emit r.inst (.error err) w1 else w1
      { w2 with
        registerCalls := w2.registerCalls.map
          (fun c => if c.promise = n then react (promiseState w2 n) c else c) }

/-- The hardware fires the `tx` callback of send call `n` with `(err, result)`. -/
def txCallback (n : Nat) (err result : JsVal) (w : World) : World :=
  match w.sendCalls[n]? with
  | none => w
  | some c =>
    if c.returned.isPending then
      if err.truthy then
        emit c.inst (.error err)
          { w with sendCalls := w.sendCalls.set n { c with returned := .rejected err } }
      else
        match w.signalKey c.inst with
        | none => w
        | some k =>
          let w1 := emitPayloadSend k c.payload w
          { w1 with sendCalls := w1.sendCalls.set n { c with returned := .fulfilled result } }
    else w

/-- Everything that can happen to the module: a method call by driver code or
a callback fired by the environment. -/
inductive Event where
  | construct (signalKey : String) (parser : Option (List Int → JsVal))
      (debounceTime : JsNumber)
  | register (inst : Nat) (callback : Option (List JsVal → JsVal))
  | unregister (inst : Nat)
  | manualDebounce (inst : Nat) (timeout : Int) (allListeners : Bool)
  | send (inst : Nat) (payload : List Int)
  | payload (signalKey : String) (payloadData : List Int)
  | timer (handle : Nat)
  | registerCallback (request : Nat) (err : JsVal)
  | txCallback (call : Nat) (err result : JsVal)

/-- One atomic step of the event loop. -/
def step (w : World) : Event → World
  | .construct k p d => construct k p d w
  | .register i cb => register i cb w
  | .unregister i => unregister i w
  | .manualDebounce i t a => manualDebounce i t a w
  | .send i p => send i p w
  | .payload k p => emitPayload k p w
  | .timer h => timerFires h w
  | .registerCallback n err => registerCallback n err w
  | .txCallback n err result => txCallback n err result w

/-- Run a trace of events. -/
def run (es : List Event) (w : World) : World :=
  es.foldl step w

/-- A world that the module can be in: the result of some trace from the
freshly loaded module. -/
def Reachable (w : World) : Prop :=
  ∃ es, run es World.init = w

/-- The number of times the hardware `register` function of the handle of
`signalKey` has been invoked. -/
def hardwareRegisterCount (w : World) (signalKey : String) : Nat :=
  (w.registerRequests.filter (fun r => r.signalKey == signalKey)).length

/-- The scenario of the specification: signature eurodomest, two subscribers
(slots 0 and 1) whose parsers yield the record with id X1, debounce window
500 ms. -/
def twoSubscribers : World :=
  run [.construct "eurodomest" (some fun _ => .obj "Object" [("id", .str "X1")]) (.num 500),
    .construct "eurodomest" (some fun _ => .obj "Object" [("id", .str "X1")]) (.num 500)]
    World.init

/-- Does the payload listener of the object in slot `i`, of key `k`, get past
the manual debounce test. -/
def World.listens (w : World) (i : Nat) (k : String) : Bool :=
  !w.manualDebounceFlag i && !w.signalManualDebounceFlag k

/-- Does the payload listener call `debounce` and find no entry for the
payload, so that a timer is set. -/
def World.arms (w : World) (i : Nat) (k : String) (p : List Int) : Bool :=
  w.listens i k && !notTimeoutGtZero (w.debounceTimeout i) &&
    (w.debounceBuffer i (join p)).isNone

/-- Does the payload listener reach the parser. -/
def World.passes (w : World) (i : Nat) (k : String) (p : List Int) : Bool :=
  w.listens i k &&
    (notTimeoutGtZero (w.debounceTimeout i) || (w.debounceBuffer i (join p)).isNone)

/-- The events that the payload listener of the object in slot `i` emits on
payload `p`. -/
def World.emits (w : World) (i : Nat) (k : String) (p : List Int) : List Emitted :=
  (if w.listens i k then [.payload p] else []) ++
    (if w.passes i k p && !rejected (w.payloadParser i p) then
      [.data (w.payloadParser i p)] else [])

/-- The events that the payload listener of slot `i` emits on `p`, whatever
its key. -/
def World.emitsOn (w : World) (i : Nat) (p : List Int) : List Emitted :=
  match w.signalKey i with
  | none => []
  | some k => w.emits i k p

/-- Does the payload listener of slot `i` set a debounce timer on `p`, whatever
its key. -/
def World.armsOn (w : World) (i : Nat) (p : List Int) : Bool :=
  match w.signalKey i with
  | none => false
  | some k => w.arms i k p

/-- The heap invariant: objects, handles, listeners and timers fit together.
Slots are handed out in order; every object listens exactly once on the handle
of its key; and a pending timer is the one its target still refers to. -/
structure HeapInv (w : World) : Prop where
  inst_lt : ∀ i k, w.signalKey i = some k → i < w.nextInstance
  inst_sig : ∀ i k, w.signalKey i = some k →
    w.signals k = true ∧ i ∈ w.payloadListeners k ∧ i ∈ w.payloadSendListeners k
  lis_nodup : ∀ k, (w.payloadListeners k).Nodup ∧ (w.payloadSendListeners k).Nodup
  lis_lt : ∀ k j, (j ∈ w.payloadListeners k ∨ j ∈ w.payloadSendListeners k) →
    j < w.nextInstance
  timer_buf : ∀ h d i k, w.timers h = some ⟨d, .debounceDelete i k⟩ →
    i < w.nextInstance ∧ w.debounceBuffer i k = some h
  timer_inst : ∀ h d i, w.timers h = some ⟨d, .instanceFlagOff i⟩ →
    i < w.nextInstance ∧ w.manualDebounceTimeout i = some h ∧ w.manualDebounceFlag i = true
  timer_sig : ∀ h d k, w.timers h = some ⟨d, .signalFlagOff k⟩ →
    w.signals k = true ∧ w.signalManualDebounceTimeout k = some h ∧
      w.signalManualDebounceFlag k = true

/-- How a `register` call stands when the promise it chains on has state
`st`: untouched while pending, and otherwise its callback has been invoked
once and the promise it returned is settled the same way. -/
def RegisterCall.settledAs (c : RegisterCall) (st : PState) : Prop :=
  match st with
  | .pending => c.invoked = [] ∧ c.returned = .pending
  | .fulfilled _ =>
    c.invoked = [[.null, .bool true]] ∧ c.returned = .fulfilled (c.callback [.null, .bool true])
  | .rejected err => c.invoked = [[err]] ∧ c.returned = .rejected err

/-- The registry invariant: the three module-level maps, the hardware register
requests and the `register` calls fit together. -/
structure RegInv (w : World) : Prop where
  sig_lock : ∀ k, w.signals k = true ↔ (w.registerLock k).isSome
  count : ∀ k, hardwareRegisterCount w k =
    if (w.registerLock k).getD [] = [] then 0 else 1
  req_promise : ∀ n r, w.registerRequests[n]? = some r →
    w.registerPromises r.signalKey = some n
  lock_promise : ∀ k, (w.registerLock k).getD [] ≠ [] → (w.registerPromises k).isSome
  fired_lt : ∀ n e, w.registerFired n = some e → n < w.registerRequests.length
  call_promise : ∀ c ∈ w.registerCalls, w.registerPromises c.signalKey = some c.promise
  call_lock : ∀ c ∈ w.registerCalls, (w.registerLock c.signalKey).getD [] ≠ []
  call_state : ∀ c ∈ w.registerCalls, c.settledAs (promiseState w c.promise)

/-! ## The payload listener -/
/-- The payload listener in closed form. -/
theorem payloadHandler_eq (i : Nat) (p : List Int) (w : World) (k : String)
    (hk : w.signalKey i = some k) :
    payloadHandler i p w =
      { w with
        emitted := Function.update w.emitted i (w.emitted i ++ w.emits i k p)
        debounceBuffer :=
          if w.arms i k p then
            Function.update w.debounceBuffer i
              (Function.update (w.debounceBuffer i) (join p) (some w.nextTimer))
          else w.debounceBuffer
        timers :=
          if w.arms i k p then
            Function.update w.timers w.nextTimer
              (some ⟨w.debounceTimeout i, .debounceDelete i (join p)⟩)
          else w.timers
        nextTimer := if w.arms i k p then w.nextTimer + 1 else w.nextTimer } := by
  unfold payloadHandler
  simp only [hk]
  by_cases hl : w.listens i k = true
  · have hl' : (!w.manualDebounceFlag i && !w.signalManualDebounceFlag k) = true := hl
    simp only [hl', if_true]
    by_cases hz : notTimeoutGtZero (w.debounceTimeout i) = true
    · by_cases hr : rejected (w.payloadParser i p) = true <;>
        simp [World.emits, World.arms, World.passes, hl, hz, emit, hr]
    · by_cases hb : (w.debounceBuffer i (join p)).isNone = true
      · by_cases hr : rejected (w.payloadParser i p) = true <;>
          simp [World.emits, World.arms, World.passes, hl, hz, hb, emit, debounce, hr]
      · simp [World.emits, World.arms, World.passes, hl, hz, hb, emit, debounce]
  · have hl' : (!w.manualDebounceFlag i && !w.signalManualDebounceFlag k) = false := by
      simpa [World.listens] using hl
    have hl2 : w.listens i k = false := by simpa using hl
    simp [hl', World.emits, World.arms, World.passes, hl2]
theorem heapInv_init : HeapInv World.init := by
  constructor <;> simp [World.init]

theorem heapInv_emit {w : World} (hw : HeapInv w) (i : Nat) (ev : Emitted) :
    HeapInv (emit i ev w) :=
  ⟨hw.1, hw.2, hw.3, hw.4, hw.5, hw.6, hw.7⟩

theorem heapInv_payloadHandler {w : World} (hw : HeapInv w) (i : Nat) (p : List Int) :
    HeapInv (payloadHandler i p w) := by
  cases hk : w.signalKey i with
  | none => simpa [payloadHandler, hk] using hw
  | some k =>
    rw [payloadHandler_eq i p w k hk]
    obtain ⟨h1, h2, h3, h4, h5, h6, h7⟩ := hw
    by_cases ha : w.arms i k p = true
    · have hb : w.debounceBuffer i (join p) = none := by
        simp [World.arms] at ha; exact ha.2
      simp only [ha, if_true]
      constructor
      · exact h1
      · exact h2
      · exact h3
      · exact h4
      · intro h d j k' ht
        simp only [Function.update_apply] at ht ⊢
        split_ifs at ht with e1
        · simp only [Option.some.injEq, Timer.mk.injEq, TimerAction.debounceDelete.injEq] at ht
          obtain ⟨-, rfl, rfl⟩ := ht
          simp [e1, h1 _ _ hk]
        · obtain ⟨hj, hjb⟩ := h5 _ _ _ _ ht
          refine ⟨hj, ?_⟩
          by_cases e2 : j = i
          · subst e2
            by_cases e3 : k' = join p
            · subst e3; rw [hb] at hjb; cases hjb
            · simp [e3, hjb]
          · simp [e2, hjb]
      · intro h d j ht
        simp only [Function.update_apply] at ht
        split_ifs at ht
        · simp at ht
        · exact h6 _ _ _ ht
      · intro h d k' ht
        simp only [Function.update_apply] at ht
        split_ifs at ht
        · simp at ht
        · exact h7 _ _ _ ht
    · simp only [ha]
      exact ⟨h1, h2, h3, h4, h5, h6, h7⟩

theorem heapInv_foldl_payloadHandler (p : List Int) (L : List Nat) :
    ∀ {w : World}, HeapInv w → HeapInv (L.foldl (fun w i => payloadHandler i p w) w) := by
  induction L with
  | nil => intro w hw; exact hw
  | cons j L ih => intro w hw; exact ih (heapInv_payloadHandler hw j p)

theorem heapInv_emitPayload {w : World} (hw : HeapInv w) (k : String) (p : List Int) :
    HeapInv (emitPayload k p w) := by
  unfold emitPayload
  split
  · exact heapInv_foldl_payloadHandler p _ hw
  · exact hw

theorem heapInv_foldl_emit (ev : Emitted) (L : List Nat) :
    ∀ {w : World}, HeapInv w → HeapInv (L.foldl (fun w i => emit i ev w) w) := by
  induction L with
  | nil => intro w hw; exact hw
  | cons j L ih => intro w hw; exact ih (heapInv_emit hw j ev)

theorem heapInv_emitPayloadSend {w : World} (hw : HeapInv w) (k : String) (p : List Int) :
    HeapInv (emitPayloadSend k p w) := by
  unfold emitPayloadSend
  split
  · exact heapInv_foldl_emit _ _ hw
  · exact hw

theorem heapInv_send {w : World} (hw : HeapInv w) (i : Nat) (p : List Int) :
    HeapInv (send i p w) := by
  unfold send
  split
  · exact hw
  · exact ⟨hw.1, hw.2, hw.3, hw.4, hw.5, hw.6, hw.7⟩

theorem heapInv_txCallback {w : World} (hw : HeapInv w) (n : Nat) (err result : JsVal) :
    HeapInv (txCallback n err result w) := by
  unfold txCallback
  split
  · exact hw
  · split
    · split
      · exact ⟨hw.1, hw.2, hw.3, hw.4, hw.5, hw.6, hw.7⟩
      · split
        · exact hw
        · have := heapInv_emitPayloadSend hw ‹String› (‹SendCall›).payload
          exact ⟨this.1, this.2, this.3, this.4, this.5, this.6, this.7⟩
    · exact hw

theorem heapInv_register {w : World} (hw : HeapInv w) (i : Nat) (cb : Option (List JsVal → JsVal)) :
    HeapInv (register i cb w) := by
  unfold register
  split
  · exact hw
  · split
    · exact hw
    · dsimp only
      split <;> split <;> exact ⟨hw.1, hw.2, hw.3, hw.4, hw.5, hw.6, hw.7⟩

theorem heapInv_registerCallback {w : World} (hw : HeapInv w) (n : Nat) (err : JsVal) :
    HeapInv (registerCallback n err w) := by
  unfold registerCallback
  split
  · exact hw
  · split
    · exact hw
    · dsimp only
      split <;> exact ⟨hw.1, hw.2, hw.3, hw.4, hw.5, hw.6, hw.7⟩
theorem heapInv_timerFires {w : World} (hw : HeapInv w) (h : Nat) :
    HeapInv (timerFires h w) := by
  unfold timerFires
  obtain ⟨h1, h2, h3, h4, h5, h6, h7⟩ := hw
  cases ht : w.timers h with
  | none => exact ⟨h1, h2, h3, h4, h5, h6, h7⟩
  | some t =>
    obtain ⟨d, a⟩ := t
    cases a with
    | debounceDelete i k =>
      dsimp only
      refine ⟨h1, h2, h3, h4, ?_, ?_, ?_⟩
      · intro h' d' j k' ht'
        simp only [Function.update_apply] at ht' ⊢
        split_ifs at ht' with e1
        obtain ⟨hj, hjb⟩ := h5 _ _ _ _ ht'
        refine ⟨hj, ?_⟩
        by_cases e2 : j = i
        · subst e2
          by_cases e3 : k' = k
          · subst e3
            have := (h5 _ _ _ _ ht).2
            rw [hjb] at this
            simp at this
            exact absurd this e1
          · simp [e3, hjb]
        · simp [e2, hjb]
      · intro h' d' j ht'
        simp only [Function.update_apply] at ht'
        split_ifs at ht'
        exact h6 _ _ _ ht'
      · intro h' d' k' ht'
        simp only [Function.update_apply] at ht'
        split_ifs at ht'
        exact h7 _ _ _ ht'
    | instanceFlagOff i =>
      dsimp only
      refine ⟨h1, h2, h3, h4, ?_, ?_, ?_⟩
      · intro h' d' j k' ht'
        simp only [Function.update_apply] at ht'
        split_ifs at ht'
        exact h5 _ _ _ _ ht'
      · intro h' d' j ht'
        simp only [Function.update_apply] at ht' ⊢
        split_ifs at ht' with e1
        obtain ⟨hj, hjm, hjf⟩ := h6 _ _ _ ht'
        refine ⟨hj, hjm, ?_⟩
        split_ifs with e2
        · subst e2
          have := (h6 _ _ _ ht).2.1
          rw [hjm] at this
          simp at this
          exact absurd this e1
        · exact hjf
      · intro h' d' k' ht'
        simp only [Function.update_apply] at ht'
        split_ifs at ht'
        exact h7 _ _ _ ht'
    | signalFlagOff k =>
      dsimp only
      refine ⟨h1, h2, h3, h4, ?_, ?_, ?_⟩
      · intro h' d' j k' ht'
        simp only [Function.update_apply] at ht'
        split_ifs at ht'
        exact h5 _ _ _ _ ht'
      · intro h' d' j ht'
        simp only [Function.update_apply] at ht'
        split_ifs at ht'
        exact h6 _ _ _ ht'
      · intro h' d' k' ht'
        simp only [Function.update_apply] at ht' ⊢
        split_ifs at ht' with e1
        obtain ⟨hj, hjm, hjf⟩ := h7 _ _ _ ht'
        refine ⟨hj, hjm, ?_⟩
        split_ifs with e2
        · subst e2
          have := (h7 _ _ _ ht).2.1
          rw [hjm] at this
          simp at this
          exact absurd this e1
        · exact hjf

theorem clearTimeout_some {o : Option Nat} {timers : Nat → Option Timer} {h : Nat} {t : Timer}
    (ht : clearTimeout o timers h = some t) : timers h = some t ∧ o ≠ some h := by
  unfold clearTimeout at ht
  cases o with
  | none => exact ⟨ht, by simp⟩
  | some h' =>
    simp only [Function.update_apply] at ht
    split_ifs at ht with e
    refine ⟨ht, ?_⟩
    intro e'
    exact e (by simpa using e'.symm)

theorem heapInv_manualDebounce {w : World} (hw : HeapInv w) (i : Nat) (t : Int) (a : Bool) :
    HeapInv (manualDebounce i t a w) := by
  unfold manualDebounce
  obtain ⟨h1, h2, h3, h4, h5, h6, h7⟩ := hw
  cases hk : w.signalKey i with
  | none => exact ⟨h1, h2, h3, h4, h5, h6, h7⟩
  | some k =>
    cases a with
    | true =>
      simp only [if_true]
      refine ⟨h1, h2, h3, h4, ?_, ?_, ?_⟩
      · intro h' d' j k' ht'
        simp only [Function.update_apply] at ht'
        split_ifs at ht'
        · simp at ht'
        · exact h5 _ _ _ _ (clearTimeout_some ht').1
      · intro h' d' j ht'
        simp only [Function.update_apply] at ht'
        split_ifs at ht'
        · simp at ht'
        · exact h6 _ _ _ (clearTimeout_some ht').1
      · intro h' d' k' ht'
        simp only [Function.update_apply] at ht' ⊢
        split_ifs at ht' with e1
        · simp only [Option.some.injEq, Timer.mk.injEq, TimerAction.signalFlagOff.injEq] at ht'
          obtain ⟨-, rfl⟩ := ht'
          simp [e1, (h2 _ _ hk).1]
        · obtain ⟨ht1, hne⟩ := clearTimeout_some ht'
          obtain ⟨hj, hjm, hjf⟩ := h7 _ _ _ ht1
          refine ⟨hj, ?_⟩
          by_cases e2 : k' = k
          · subst e2
            exact absurd hjm hne
          · simp [e2, hjm, hjf]
    | false =>
      simp only [Bool.false_eq_true, if_false]
      refine ⟨h1, h2, h3, h4, ?_, ?_, ?_⟩
      · intro h' d' j k' ht'
        simp only [Function.update_apply] at ht'
        split_ifs at ht'
        · simp at ht'
        · exact h5 _ _ _ _ (clearTimeout_some ht').1
      · intro h' d' j ht'
        simp only [Function.update_apply] at ht' ⊢
        split_ifs at ht' with e1
        · simp only [Option.some.injEq, Timer.mk.injEq, TimerAction.instanceFlagOff.injEq] at ht'
          obtain ⟨-, rfl⟩ := ht'
          simp [e1, h1 _ _ hk]
        · obtain ⟨ht1, hne⟩ := clearTimeout_some ht'
          obtain ⟨hj, hjm, hjf⟩ := h6 _ _ _ ht1
          refine ⟨hj, ?_⟩
          by_cases e2 : j = i
          · subst e2
            exact absurd hjm hne
          · simp [e2, hjm, hjf]
      · intro h' d' k' ht'
        simp only [Function.update_apply] at ht'
        split_ifs at ht'
        · simp at ht'
        · exact h7 _ _ _ (clearTimeout_some ht').1
theorem heapInv_construct {w : World} (hw : HeapInv w) (k : String)
    (parser : Option (List Int → JsVal)) (d : JsNumber) :
    HeapInv (construct k parser d w) := by
  unfold construct
  obtain ⟨h1, h2, h3, h4, h5, h6, h7⟩ := hw
  have hfresh : w.signalKey w.nextInstance = none := by
    cases e : w.signalKey w.nextInstance with
    | none => rfl
    | some k' => exact absurd (h1 _ _ e) (lt_irrefl _)
  have hnl : ∀ k', w.nextInstance ∉ w.payloadListeners k' := fun k' hm =>
    absurd (h4 k' _ (Or.inl hm)) (lt_irrefl _)
  have hns : ∀ k', w.nextInstance ∉ w.payloadSendListeners k' := fun k' hm =>
    absurd (h4 k' _ (Or.inr hm)) (lt_irrefl _)
  constructor <;> dsimp only
  · intro j k' hj
    simp only [Function.update_apply] at hj
    split_ifs at hj with e
    · omega
    · have := h1 _ _ hj; omega
  · intro j k' hj
    simp only [Function.update_apply] at hj ⊢
    split_ifs at hj with e
    · simp only [Option.some.injEq] at hj
      subst hj e
      simp
    · obtain ⟨a, b, c⟩ := h2 _ _ hj
      by_cases e2 : k' = k
      · subst e2
        simp [a, b, c]
      · simp [e2, a, b, c]
  · intro k'
    simp only [Function.update_apply]
    split_ifs with e1 e2
    · subst e1
      refine ⟨List.Nodup.append (h3 _).1 (List.nodup_singleton _) ?_,
        List.Nodup.append (h3 _).2 (List.nodup_singleton _) ?_⟩
      · simpa using hnl _
      · simpa using hns _
    · simp
    · exact h3 k'
  · intro k' j hj
    simp only [Function.update_apply] at hj
    split_ifs at hj with e1 e2
    · simp only [List.mem_append, List.mem_singleton] at hj
      rcases hj with (hj | hj) | (hj | hj)
      · have := h4 _ _ (Or.inl hj); omega
      · omega
      · have := h4 _ _ (Or.inr hj); omega
      · omega
    · simp only [List.nil_append, List.mem_singleton, or_self] at hj
      omega
    · have := h4 _ _ hj; omega
  · intro h' d' j k' ht'
    obtain ⟨hj, hjb⟩ := h5 _ _ _ _ ht'
    refine ⟨by omega, ?_⟩
    have : j ≠ w.nextInstance := by omega
    simp [this, hjb]
  · intro h' d' j ht'
    obtain ⟨hj, hjm, hjf⟩ := h6 _ _ _ ht'
    refine ⟨by omega, ?_⟩
    have : j ≠ w.nextInstance := by omega
    simp [this, hjm, hjf]
  · intro h' d' k' ht'
    obtain ⟨hj, hjm, hjf⟩ := h7 _ _ _ ht'
    simp only [Function.update_apply]
    by_cases e : k' = k
    · subst e
      simp [hj, hjm, hjf]
    · simp only [e, if_false]
      refine ⟨hj, ?_, ?_⟩
      · split_ifs
        · exact hjm
        · simp [Function.update_apply, e, hjm]
      · split_ifs
        · exact hjf
        · simp [Function.update_apply, e, hjf]

theorem heapInv_step {w : World} (hw : HeapInv w) (e : Event) : HeapInv (step w e) := by
  cases e with
  | construct k p d => exact heapInv_construct hw k p d
  | register i cb => exact heapInv_register hw i cb
  | unregister i => exact hw
  | manualDebounce i t a => exact heapInv_manualDebounce hw i t a
  | send i p => exact heapInv_send hw i p
  | payload k p => exact heapInv_emitPayload hw k p
  | timer h => exact heapInv_timerFires hw h
  | registerCallback n err => exact heapInv_registerCallback hw n err
  | txCallback n err result => exact heapInv_txCallback hw n err result

theorem heapInv_run (es : List Event) : ∀ {w : World}, HeapInv w → HeapInv (run es w) := by
  induction es with
  | nil => intro w hw; exact hw
  | cons e es ih => intro w hw; exact ih (heapInv_step hw e)

theorem Reachable.heapInv {w : World} (hw : Reachable w) : HeapInv w := by
  obtain ⟨es, rfl⟩ := hw
  exact heapInv_run es heapInv_init

theorem Reachable.step {w : World} (hw : Reachable w) (e : Event) : Reachable (step w e) := by
  obtain ⟨es, rfl⟩ := hw
  exact ⟨es ++ [e], by simp [run]⟩

theorem run_append (es fs : List Event) (w : World) : run (es ++ fs) w = run fs (run es w) := by
  simp [run]

theorem Reachable.run {w : World} (hw : Reachable w) (es : List Event) : Reachable (run es w) := by
  obtain ⟨es0, rfl⟩ := hw
  exact ⟨es0 ++ es, by simp [Signal433.run]⟩
theorem payloadHandler_eq' (i : Nat) (p : List Int) (w : World) :
    payloadHandler i p w =
      { w with
        emitted := Function.update w.emitted i (w.emitted i ++ w.emitsOn i p)
        debounceBuffer :=
          if w.armsOn i p then
            Function.update w.debounceBuffer i
              (Function.update (w.debounceBuffer i) (join p) (some w.nextTimer))
          else w.debounceBuffer
        timers :=
          if w.armsOn i p then
            Function.update w.timers w.nextTimer
              (some ⟨w.debounceTimeout i, .debounceDelete i (join p)⟩)
          else w.timers
        nextTimer := if w.armsOn i p then w.nextTimer + 1 else w.nextTimer } := by
  cases hk : w.signalKey i with
  | none =>
    simp [payloadHandler, hk, World.emitsOn, World.armsOn]
  | some k =>
    rw [payloadHandler_eq i p w k hk]
    simp [World.emitsOn, World.armsOn, hk]

theorem emitsOn_congr {w w' : World} {i : Nat} {p : List Int}
    (h1 : w'.signalKey i = w.signalKey i)
    (h2 : w'.manualDebounceFlag i = w.manualDebounceFlag i)
    (h3 : w'.signalManualDebounceFlag = w.signalManualDebounceFlag)
    (h4 : w'.debounceTimeout i = w.debounceTimeout i)
    (h5 : w'.debounceBuffer i = w.debounceBuffer i)
    (h6 : w'.payloadParser i = w.payloadParser i) :
    w'.emitsOn i p = w.emitsOn i p := by
  simp [World.emitsOn, World.emits, World.passes, World.listens, h1, h2, h3, h4, h5, h6]

theorem armsOn_congr {w w' : World} {i : Nat} {p : List Int}
    (h1 : w'.signalKey i = w.signalKey i)
    (h2 : w'.manualDebounceFlag i = w.manualDebounceFlag i)
    (h3 : w'.signalManualDebounceFlag = w.signalManualDebounceFlag)
    (h4 : w'.debounceTimeout i = w.debounceTimeout i)
    (h5 : w'.debounceBuffer i = w.debounceBuffer i) :
    w'.armsOn i p = w.armsOn i p := by
  simp [World.armsOn, World.arms, World.listens, h1, h2, h3, h4, h5]

theorem payloadHandler_buffer_ne (j i : Nat) (p : List Int) (w : World) (h : i ≠ j) :
    (payloadHandler j p w).debounceBuffer i = w.debounceBuffer i := by
  rw [payloadHandler_eq']
  dsimp only
  split_ifs <;> simp [h]

theorem payloadHandler_emitsOn_ne (j i : Nat) (p q : List Int) (w : World) (h : i ≠ j) :
    (payloadHandler j p w).emitsOn i q = w.emitsOn i q := by
  apply emitsOn_congr
  · rw [payloadHandler_eq']
  · rw [payloadHandler_eq']
  · rw [payloadHandler_eq']
  · rw [payloadHandler_eq']
  · exact payloadHandler_buffer_ne j i p w h
  · rw [payloadHandler_eq']

theorem payloadHandler_armsOn_ne (j i : Nat) (p q : List Int) (w : World) (h : i ≠ j) :
    (payloadHandler j p w).armsOn i q = w.armsOn i q := by
  apply armsOn_congr
  · rw [payloadHandler_eq']
  · rw [payloadHandler_eq']
  · rw [payloadHandler_eq']
  · rw [payloadHandler_eq']
  · exact payloadHandler_buffer_ne j i p w h

/-- The columns that a delivery leaves alone. -/
theorem foldl_payloadHandler_frame (p : List Int) (L : List Nat) :
    ∀ w : World, 
      let w' := L.foldl (fun w i => payloadHandler i p w) w
      w'.signalKey = w.signalKey ∧ w'.manualDebounceFlag = w.manualDebounceFlag ∧
      w'.signalManualDebounceFlag = w.signalManualDebounceFlag ∧
      w'.debounceTimeout = w.debounceTimeout ∧ w'.payloadParser = w.payloadParser ∧
      w'.signals = w.signals ∧ w'.payloadListeners = w.payloadListeners ∧
      w'.manualDebounceTimeout = w.manualDebounceTimeout ∧
      w'.signalManualDebounceTimeout = w.signalManualDebounceTimeout ∧
      w'.nextInstance = w.nextInstance ∧ w'.payloadSendListeners = w.payloadSendListeners := by
  induction L with
  | nil => intro w; simp
  | cons j L ih =>
    intro w
    have := ih (payloadHandler j p w)
    simp only [List.foldl_cons]
    rw [payloadHandler_eq'] at this ⊢
    exact this

theorem foldl_payloadHandler_emitted (p : List Int) (L : List Nat) :
    ∀ w : World, L.Nodup → ∀ i,
      (L.foldl (fun w i => payloadHandler i p w) w).emitted i =
        w.emitted i ++ (if i ∈ L then w.emitsOn i p else []) := by
  induction L with
  | nil => intro w _ i; simp
  | cons j L ih =>
    intro w hn i
    rw [List.nodup_cons] at hn
    simp only [List.foldl_cons]
    rw [ih _ hn.2 i]
    by_cases e : i = j
    · subst e
      simp only [hn.1, if_false, List.mem_cons, true_or, if_true, List.append_nil]
      rw [payloadHandler_eq']
      simp
    · rw [payloadHandler_emitsOn_ne j i p p w e]
      have : (payloadHandler j p w).emitted i = w.emitted i := by
        rw [payloadHandler_eq']; simp [e]
      rw [this]
      simp [e]
theorem payloadHandler_nextTimer (j : Nat) (p : List Int) (w : World) :
    w.nextTimer ≤ (payloadHandler j p w).nextTimer := by
  rw [payloadHandler_eq']
  dsimp only
  split_ifs <;> omega

theorem payloadHandler_timers (j : Nat) (p : List Int) (w : World) (h : Nat)
    (hlt : h < w.nextTimer) : (payloadHandler j p w).timers h = w.timers h := by
  rw [payloadHandler_eq']
  dsimp only
  split_ifs
  · have : h ≠ w.nextTimer := by omega
    simp [this]
  · rfl

theorem foldl_payloadHandler_timers (p : List Int) (L : List Nat) :
    ∀ w : World,
      w.nextTimer ≤ (L.foldl (fun w i => payloadHandler i p w) w).nextTimer ∧
      ∀ h, h < w.nextTimer →
        (L.foldl (fun w i => payloadHandler i p w) w).timers h = w.timers h := by
  induction L with
  | nil => intro w; simp
  | cons j L ih =>
    intro w
    simp only [List.foldl_cons]
    obtain ⟨a, b⟩ := ih (payloadHandler j p w)
    have c := payloadHandler_nextTimer j p w
    refine ⟨le_trans c a, fun h hlt => ?_⟩
    rw [b h (lt_of_lt_of_le hlt c), payloadHandler_timers j p w h hlt]

theorem foldl_payloadHandler_buffer (p : List Int) (L : List Nat) :
    ∀ w : World, L.Nodup → ∀ i,
      let w' := L.foldl (fun w i => payloadHandler i p w) w
      (¬ (i ∈ L ∧ w.armsOn i p = true) → w'.debounceBuffer i = w.debounceBuffer i) ∧
      (i ∈ L → w.armsOn i p = true → ∃ h, w.nextTimer ≤ h ∧ h < w'.nextTimer ∧
        w'.debounceBuffer i = Function.update (w.debounceBuffer i) (join p) (some h) ∧
        w'.timers h = some ⟨w.debounceTimeout i, .debounceDelete i (join p)⟩) := by
  induction L with
  | nil => intro w _ i; simp
  | cons j L ih =>
    intro w hn i
    rw [List.nodup_cons] at hn
    simp only [List.foldl_cons]
    obtain ⟨ih1, ih2⟩ := ih (payloadHandler j p w) hn.2 i
    obtain ⟨t1, t2⟩ := foldl_payloadHandler_timers p L (payloadHandler j p w)
    by_cases e : i = j
    · subst e
      have hb := ih1 (fun h => hn.1 h.1)
      constructor
      · intro hna
        have ha : w.armsOn i p = false := by
          simpa using hna
        rw [hb, payloadHandler_eq']
        simp [ha]
      · intro _ ha
        refine ⟨w.nextTimer, le_refl _, ?_, ?_, ?_⟩
        · refine lt_of_lt_of_le ?_ t1
          rw [payloadHandler_eq']; simp [ha]
        · rw [hb, payloadHandler_eq']
          simp [ha]
        · rw [t2]
          · rw [payloadHandler_eq']; simp [ha]
          · rw [payloadHandler_eq']; simp [ha]
    · have ea := payloadHandler_armsOn_ne j i p p w e
      have eb := payloadHandler_buffer_ne j i p w e
      constructor
      · intro hna
        rw [ih1, eb]
        rw [ea]
        intro h
        exact hna ⟨List.mem_cons_of_mem _ h.1, h.2⟩
      · intro hi ha
        have hi' : i ∈ L := by
          rcases List.mem_cons.mp hi with h | h
          · exact absurd h e
          · exact h
        obtain ⟨h, h1, h2, h3, h4⟩ := ih2 hi' (by rw [ea]; exact ha)
        refine ⟨h, le_trans (payloadHandler_nextTimer j p w) h1, h2, ?_, ?_⟩
        · rw [h3, eb]
        · rw [h4]
          have : (payloadHandler j p w).debounceTimeout = w.debounceTimeout := by
            rw [payloadHandler_eq']
          rw [this]
theorem foldl_emit_frame (ev : Emitted) (L : List Nat) :
    ∀ w : World,
      let w' := L.foldl (fun w i => emit i ev w) w
      w' = { w with emitted := w'.emitted } := by
  induction L with
  | nil => intro w; rfl
  | cons j L ih =>
    intro w
    simp only [List.foldl_cons]
    have := ih (emit j ev w)
    rw [this]
    rfl

theorem foldl_emit_emitted (ev : Emitted) (L : List Nat) :
    ∀ w : World, L.Nodup → ∀ i,
      (L.foldl (fun w i => emit i ev w) w).emitted i =
        w.emitted i ++ (if i ∈ L then [ev] else []) := by
  induction L with
  | nil => intro w _ i; simp
  | cons j L ih =>
    intro w hn i
    rw [List.nodup_cons] at hn
    simp only [List.foldl_cons]
    rw [ih _ hn.2 i]
    by_cases e : i = j
    · subst e
      simp [hn.1, emit]
    · simp [e, emit]

theorem emitPayloadSend_frame (k : String) (p : List Int) (w : World) :
    emitPayloadSend k p w = { w with emitted := (emitPayloadSend k p w).emitted } := by
  unfold emitPayloadSend
  split
  · exact foldl_emit_frame _ _ w
  · rfl

theorem step_nextTimer (w : World) (e : Event) : w.nextTimer ≤ (step w e).nextTimer := by
  cases e with
  | construct k p d => exact le_refl _
  | register i cb =>
    simp only [step, register]
    split
    · exact le_refl _
    · split
      · exact le_refl _
      · split <;> split <;> exact le_refl _
  | unregister i => exact le_refl _
  | manualDebounce i t a =>
    simp only [step, manualDebounce]
    split
    · exact le_refl _
    · split <;> simp
  | send i p =>
    simp only [step, send]
    split <;> exact le_refl _
  | payload k p =>
    simp only [step, emitPayload]
    split
    · exact (foldl_payloadHandler_timers p _ w).1
    · exact le_refl _
  | timer h =>
    simp only [step, timerFires]
    split
    · exact le_refl _
    · split <;> exact le_refl _
  | registerCallback n err =>
    simp only [step, registerCallback]
    split
    · exact le_refl _
    · split
      · exact le_refl _
      · dsimp only
        split <;> exact le_refl _
  | txCallback n err result =>
    simp only [step, txCallback]
    split
    · exact le_refl _
    · split
      · split
        · exact le_refl _
        · split
          · exact le_refl _
          · rw [emitPayloadSend_frame]
      · exact le_refl _

theorem clearTimeout_apply (o : Option Nat) (timers : Nat → Option Timer) (h : Nat) :
    clearTimeout o timers h = timers h ∨ clearTimeout o timers h = none := by
  cases o with
  | none => exact Or.inl rfl
  | some h' =>
    simp only [clearTimeout, Function.update_apply]
    split_ifs
    · exact Or.inr rfl
    · exact Or.inl rfl

theorem step_timers (w : World) (e : Event) (h : Nat) (hlt : h < w.nextTimer) :
    (step w e).timers h = w.timers h ∨ (step w e).timers h = none := by
  cases e with
  | construct k p d => exact Or.inl rfl
  | register i cb =>
    simp only [step, register]
    split
    · exact Or.inl rfl
    · split
      · exact Or.inl rfl
      · split <;> split <;> exact Or.inl rfl
  | unregister i => exact Or.inl rfl
  | manualDebounce i t a =>
    have hne : h ≠ w.nextTimer := by omega
    simp only [step, manualDebounce]
    split
    · exact Or.inl rfl
    · split
      · simp only [Function.update_apply, hne, if_false]
        exact clearTimeout_apply _ _ _
      · simp only [Function.update_apply, hne, if_false]
        exact clearTimeout_apply _ _ _
  | send i p =>
    simp only [step, send]
    split <;> exact Or.inl rfl
  | payload k p =>
    simp only [step, emitPayload]
    split
    · exact Or.inl ((foldl_payloadHandler_timers p _ w).2 h hlt)
    · exact Or.inl rfl
  | timer h' =>
    simp only [step, timerFires]
    split
    · exact Or.inl rfl
    · split <;>
      · simp only [Function.update_apply]
        split_ifs
        · exact Or.inr rfl
        · exact Or.inl rfl
  | registerCallback n err =>
    simp only [step, registerCallback]
    split
    · exact Or.inl rfl
    · split
      · exact Or.inl rfl
      · dsimp only
        split <;> exact Or.inl rfl
  | txCallback n err result =>
    simp only [step, txCallback]
    split
    · exact Or.inl rfl
    · split
      · split
        · exact Or.inl rfl
        · split
          · exact Or.inl rfl
          · rw [emitPayloadSend_frame]
            exact Or.inl rfl
      · exact Or.inl rfl

theorem run_timers (es : List Event) :
    ∀ (w : World) (h : Nat), h < w.nextTimer →
      (run es w).timers h = w.timers h ∨ (run es w).timers h = none := by
  induction es with
  | nil => intro w h _; exact Or.inl rfl
  | cons e es ih =>
    intro w h hlt
    have h1 := step_timers w e h hlt
    have h2 := ih (step w e) h (lt_of_lt_of_le hlt (step_nextTimer w e))
    show (run es (step w e)).timers h = _ ∨ (run es (step w e)).timers h = _
    rcases h2 with h2 | h2
    · rcases h1 with h1 | h1
      · exact Or.inl (h2.trans h1)
      · exact Or.inr (h2.trans h1)
    · exact Or.inr h2

theorem run_timers_pending (es : List Event) (w : World) (h : Nat) (hlt : h < w.nextTimer)
    (hp : (run es w).timers h ≠ none) : (run es w).timers h = w.timers h := by
  rcases run_timers es w h hlt with h1 | h1
  · exact h1
  · exact absurd h1 hp
theorem step_config {w : World} (hw : HeapInv w) (e : Event) (i : Nat) (k : String)
    (hk : w.signalKey i = some k) :
    (step w e).signalKey i = some k ∧ (step w e).debounceTimeout i = w.debounceTimeout i ∧
      (step w e).payloadParser i = w.payloadParser i := by
  cases e with
  | construct k' p d =>
    have : i ≠ w.nextInstance := by
      have := hw.inst_lt _ _ hk; omega
    simp [step, construct, this, hk]
  | register i' cb =>
    simp only [step, register]
    split
    · exact ⟨hk, rfl, rfl⟩
    · split
      · exact ⟨hk, rfl, rfl⟩
      · split <;> split <;> exact ⟨hk, rfl, rfl⟩
  | unregister i' => exact ⟨hk, rfl, rfl⟩
  | manualDebounce i' t a =>
    simp only [step, manualDebounce]
    split
    · exact ⟨hk, rfl, rfl⟩
    · split <;> exact ⟨hk, rfl, rfl⟩
  | send i' p =>
    simp only [step, send]
    split <;> exact ⟨hk, rfl, rfl⟩
  | payload k' p =>
    simp only [step, emitPayload]
    split
    · obtain ⟨a, -, -, b, c, -⟩ := foldl_payloadHandler_frame p (w.payloadListeners k') w
      rw [a, b, c]
      exact ⟨hk, rfl, rfl⟩
    · exact ⟨hk, rfl, rfl⟩
  | timer h =>
    simp only [step, timerFires]
    split
    · exact ⟨hk, rfl, rfl⟩
    · split <;> exact ⟨hk, rfl, rfl⟩
  | registerCallback n err =>
    simp only [step, registerCallback]
    split
    · exact ⟨hk, rfl, rfl⟩
    · split
      · exact ⟨hk, rfl, rfl⟩
      · dsimp only
        split <;> exact ⟨hk, rfl, rfl⟩
  | txCallback n err result =>
    simp only [step, txCallback]
    split
    · exact ⟨hk, rfl, rfl⟩
    · split
      · split
        · exact ⟨hk, rfl, rfl⟩
        · split
          · exact ⟨hk, rfl, rfl⟩
          · rw [emitPayloadSend_frame]
            exact ⟨hk, rfl, rfl⟩
      · exact ⟨hk, rfl, rfl⟩

theorem run_config (es : List Event) :
    ∀ {w : World}, HeapInv w → ∀ (i : Nat) (k : String), w.signalKey i = some k →
      (run es w).signalKey i = some k ∧ (run es w).debounceTimeout i = w.debounceTimeout i ∧
        (run es w).payloadParser i = w.payloadParser i := by
  induction es with
  | nil => intro w _ i k hk; exact ⟨hk, rfl, rfl⟩
  | cons e es ih =>
    intro w hw i k hk
    obtain ⟨a, b, c⟩ := step_config hw e i k hk
    obtain ⟨a', b', c'⟩ := ih (heapInv_step hw e) i k a
    exact ⟨a', b'.trans b, c'.trans c⟩

/-- What one delivery on the handle of key `k` emits on an object of that key. -/
theorem emitPayload_emitted {w : World} (hw : HeapInv w) (i : Nat) (k : String)
    (hk : w.signalKey i = some k) (p : List Int) :
    (emitPayload k p w).emitted i = w.emitted i ++ w.emits i k p := by
  obtain ⟨hs, hm, -⟩ := hw.inst_sig i k hk
  simp only [emitPayload, hs, if_true]
  rw [foldl_payloadHandler_emitted p _ w (hw.lis_nodup k).1 i]
  simp [hm, World.emitsOn, hk]

theorem emitPayload_frame (k : String) (p : List Int) (w : World) :
    (emitPayload k p w).signalKey = w.signalKey ∧
    (emitPayload k p w).manualDebounceFlag = w.manualDebounceFlag ∧
    (emitPayload k p w).signalManualDebounceFlag = w.signalManualDebounceFlag ∧
    (emitPayload k p w).debounceTimeout = w.debounceTimeout ∧
    (emitPayload k p w).payloadParser = w.payloadParser := by
  unfold emitPayload
  split
  · obtain ⟨a, b, c, d, e, -⟩ := foldl_payloadHandler_frame p (w.payloadListeners k) w
    exact ⟨a, b, c, d, e⟩
  · exact ⟨rfl, rfl, rfl, rfl, rfl⟩

theorem emitPayload_timers (k : String) (p : List Int) (w : World) (h : Nat)
    (hlt : h < w.nextTimer) :
    (emitPayload k p w).timers h = w.timers h ∧ h < (emitPayload k p w).nextTimer := by
  unfold emitPayload
  split
  · obtain ⟨a, b⟩ := foldl_payloadHandler_timers p (w.payloadListeners k) w
    exact ⟨b h hlt, lt_of_lt_of_le hlt a⟩
  · exact ⟨rfl, hlt⟩

/-- What one delivery does to the debounce buffer of an object of that key. -/
theorem emitPayload_buffer {w : World} (hw : HeapInv w) (i : Nat) (k : String)
    (hk : w.signalKey i = some k) (p : List Int) :
    (w.arms i k p = false → (emitPayload k p w).debounceBuffer i = w.debounceBuffer i) ∧
    (w.arms i k p = true → ∃ h, h < (emitPayload k p w).nextTimer ∧
      (emitPayload k p w).debounceBuffer i =
        Function.update (w.debounceBuffer i) (join p) (some h) ∧
      (emitPayload k p w).timers h =
        some ⟨w.debounceTimeout i, .debounceDelete i (join p)⟩) := by
  obtain ⟨hs, hm, -⟩ := hw.inst_sig i k hk
  simp only [emitPayload, hs, if_true]
  obtain ⟨a, b⟩ := foldl_payloadHandler_buffer p _ w (hw.lis_nodup k).1 i
  have e : w.armsOn i p = w.arms i k p := by simp [World.armsOn, hk]
  rw [e] at a b
  constructor
  · intro h
    exact a (by simp [h])
  · intro h
    obtain ⟨t, -, h2, h3, h4⟩ := b hm h
    exact ⟨t, h2, h3, h4⟩
theorem rejected_of_falsy {v : JsVal} (h : v.truthy = false) : rejected v = true := by
  simp [rejected, h]

theorem rejected_of_not_record {v : JsVal} (h : ∀ props, v ≠ .obj "Object" props) :
    rejected v = true := by
  have : v.constructorIsObject = false := by
    cases v with
    | obj c props =>
      simp only [JsVal.constructorIsObject, beq_eq_false_iff_ne, ne_eq]
      intro hc
      exact h props (by rw [hc])
    | _ => rfl
  simp [rejected, this]

theorem rejected_of_no_id {v : JsVal} {props : List (String × JsVal)}
    (h : v = .obj "Object" props) (hid : props.lookup "id" = none) : rejected v = true := by
  subst h
  simp [rejected, JsVal.get, hid, JsVal.truthy]

theorem truthy_obj (c : String) (props : List (String × JsVal)) :
    (JsVal.obj c props).truthy = true := rfl

theorem not_rejected_of_record {props : List (String × JsVal)} {v : JsVal}
    (hid : props.lookup "id" = some v) (hv : v.truthy = true) :
    rejected (.obj "Object" props) = false := by
  simp [rejected, JsVal.get, hid, truthy_obj, JsVal.constructorIsObject, hv]

theorem emits_no_data_of_rejected (w : World) (i : Nat) (k : String) (p : List Int)
    (h : rejected (w.payloadParser i p) = true) : ∀ ev ∈ w.emits i k p, ev.isData = false := by
  intro ev hev
  simp only [World.emits, h, Bool.not_true, Bool.and_false, Bool.false_eq_true, if_false,
    List.append_nil] at hev
  split_ifs at hev
  · simp only [List.mem_singleton] at hev
    subst hev
    rfl
  · simp at hev

/-- C4: when the parser of an object returns a falsy value, a value that is
not a plain object record, or a record without an `id` field, the payload
listener of that object emits no `data` event: neither when the listener is
run on its own in any world at all, nor in a delivery by the shared handle. -/
theorem C4_invalid_parser_result_emits_no_data (w : World) (i : Nat) (k : String)
    (p : List Int) (hk : w.signalKey i = some k)
    (hbad : (w.payloadParser i p).truthy = false ∨
      (∀ props, w.payloadParser i p ≠ .obj "Object" props) ∨
      (∃ props, w.payloadParser i p = .obj "Object" props ∧ props.lookup "id" = none)) :
    (∃ new, (payloadHandler i p w).emitted i = w.emitted i ++ new ∧
      ∀ ev ∈ new, ev.isData = false) ∧
    (Reachable w → ∃ new, (emitPayload k p w).emitted i = w.emitted i ++ new ∧
      ∀ ev ∈ new, ev.isData = false) := by
  have hr : rejected (w.payloadParser i p) = true := by
    rcases hbad with h | h | ⟨props, h, hid⟩
    · exact rejected_of_falsy h
    · exact rejected_of_not_record h
    · exact rejected_of_no_id h hid
  refine ⟨⟨w.emits i k p, ?_, emits_no_data_of_rejected w i k p hr⟩, fun hw =>
    ⟨w.emits i k p, emitPayload_emitted hw.heapInv i k hk p, emits_no_data_of_rejected w i k p hr⟩⟩
  rw [payloadHandler_eq i p w k hk]
  simp

/-- C4 on an actual run: an object built with the default parser, whose
record has no `id` field, emits no `data` event. -/
theorem C4_witness :
    (∃ new, (payloadHandler 0 [1, 0]
        (run [.construct "eurodomest" none (.num 500)] World.init)).emitted 0 =
      (run [.construct "eurodomest" none (.num 500)] World.init).emitted 0 ++ new ∧
      ∀ ev ∈ new, ev.isData = false) ∧
    (Reachable (run [.construct "eurodomest" none (.num 500)] World.init) →
      ∃ new, (emitPayload "eurodomest" [1, 0]
        (run [.construct "eurodomest" none (.num 500)] World.init)).emitted 0 =
      (run [.construct "eurodomest" none (.num 500)] World.init).emitted 0 ++ new ∧
      ∀ ev ∈ new, ev.isData = false) :=
  C4_invalid_parser_result_emits_no_data
    (run [.construct "eurodomest" none (.num 500)] World.init) 0 "eurodomest" [1, 0] rfl
    (Or.inr (Or.inr ⟨[("payload", .str (bitArrayToString [1, 0]))], rfl, rfl⟩))
theorem listens_of_flags {w : World} {i : Nat} {k : String}
    (hf : w.manualDebounceFlag i = false) (hsf : w.signalManualDebounceFlag k = false) :
    w.listens i k = true := by
  simp [World.listens, hf, hsf]

theorem notTimeoutGtZero_eq (t : Int) : notTimeoutGtZero t = decide (t = 0) := by
  unfold notTimeoutGtZero
  by_cases h : t = 0 <;> simp [h]

/-- C5, as amended: a delivery that is not stopped by manual debounce or by
the debounce filter, and whose parser result is a plain record with a truthy
`id` field, emits the `payload` event and then exactly one `data` event that
carries the record. -/
theorem C5_record_with_truthy_id_emits_data (w : World) (hw : Reachable w) (i : Nat)
    (k : String) (p : List Int) (hk : w.signalKey i = some k)
    (hf : w.manualDebounceFlag i = false) (hsf : w.signalManualDebounceFlag k = false)
    (hd : w.debounceTimeout i = 0 ∨ w.debounceBuffer i (join p) = none)
    (props : List (String × JsVal)) (hrec : w.payloadParser i p = .obj "Object" props)
    (v : JsVal) (hid : props.lookup "id" = some v) (hv : v.truthy = true) :
    (emitPayload k p w).emitted i =
      w.emitted i ++ [.payload p, .data (.obj "Object" props)] := by
  rw [emitPayload_emitted hw.heapInv i k hk p]
  have hl := listens_of_flags hf hsf
  have hp : w.passes i k p = true := by
    rcases hd with h | h
    · simp [World.passes, hl, notTimeoutGtZero_eq, h]
    · simp [World.passes, hl, h]
  simp [World.emits, hl, hp, hrec, not_rejected_of_record hid hv]

/-- C5 on an actual run: a parser that returns a record with id X1. -/
theorem C5_witness :
    (emitPayload "eurodomest" [1, 0, 1, 1]
      (run [.construct "eurodomest" (some fun _ => .obj "Object" [("id", .str "X1")])
        (.num 500)] World.init)).emitted 0 =
    (run [.construct "eurodomest" (some fun _ => .obj "Object" [("id", .str "X1")])
        (.num 500)] World.init).emitted 0 ++
      [.payload [1, 0, 1, 1], .data (.obj "Object" [("id", .str "X1")])] :=
  C5_record_with_truthy_id_emits_data
    (run [.construct "eurodomest" (some fun _ => .obj "Object" [("id", .str "X1")])
        (.num 500)] World.init) ⟨_, rfl⟩ 0 "eurodomest" [1, 0, 1, 1] rfl rfl rfl
    (Or.inr rfl) [("id", .str "X1")] rfl (.str "X1") rfl rfl

/-- C5 as stated fails: the parser returns the plain record whose `id` field
is the number 0; the delivery is stopped by neither manual debounce nor the
debounce filter, the record has an `id` field, and yet the only event
emitted is `payload`. -/
theorem C5_counterexample :
    (run [.construct "eurodomest" (some fun _ => .obj "Object" [("id", .num 0)])
        (.num 0)] World.init).payloadParser 0 [1, 0, 1, 1] = .obj "Object" [("id", .num 0)] ∧
    (run [.construct "eurodomest" (some fun _ => .obj "Object" [("id", .num 0)])
        (.num 0)] World.init).manualDebounceFlag 0 = false ∧
    (run [.construct "eurodomest" (some fun _ => .obj "Object" [("id", .num 0)])
        (.num 0)] World.init).signalManualDebounceFlag "eurodomest" = false ∧
    (run [.construct "eurodomest" (some fun _ => .obj "Object" [("id", .num 0)])
        (.num 0)] World.init).debounceTimeout 0 = 0 ∧
    (emitPayload "eurodomest" [1, 0, 1, 1]
      (run [.construct "eurodomest" (some fun _ => .obj "Object" [("id", .num 0)])
        (.num 0)] World.init)).emitted 0 = [.payload [1, 0, 1, 1]] :=
  ⟨rfl, rfl, rfl, rfl, rfl⟩

/-- C10 at the failing input: with `debounceTime` equal to -1 the debounce
window is not greater than 0, yet the debounce filter runs: the second of two
identical payloads that arrive back to back is suppressed although the parser
accepts it, and the debounce buffer holds an entry. -/
theorem C10_negative_window_still_debounces :
    (run [.construct "eurodomest" (some fun _ => .obj "Object" [("id", .str "X1")])
        (.num (-1))] World.init).debounceTimeout 0 = -1 ∧
    (run [.construct "eurodomest" (some fun _ => .obj "Object" [("id", .str "X1")])
        (.num (-1)), .payload "eurodomest" [1, 0, 1, 1],
        .payload "eurodomest" [1, 0, 1, 1]] World.init).emitted 0 =
      [.payload [1, 0, 1, 1], .data (.obj "Object" [("id", .str "X1")]),
        .payload [1, 0, 1, 1]] ∧
    (run [.construct "eurodomest" (some fun _ => .obj "Object" [("id", .str "X1")])
        (.num (-1)), .payload "eurodomest" [1, 0, 1, 1],
        .payload "eurodomest" [1, 0, 1, 1]] World.init).debounceBuffer 0 "1011" = some 0 :=
  ⟨rfl, rfl, rfl⟩
theorem arms_of_fresh {w : World} {i : Nat} {k : String} {p : List Int}
    (hpos : w.debounceTimeout i ≠ 0)
    (hf : w.manualDebounceFlag i = false) (hsf : w.signalManualDebounceFlag k = false)
    (hnew : w.debounceBuffer i (join p) = none) : w.arms i k p = true := by
  simp [World.arms, listens_of_flags hf hsf, notTimeoutGtZero_eq, hpos, hnew]

theorem emits_of_suppressed {w : World} {i : Nat} {k : String} {p : List Int} {h : Nat}
    (hpos : w.debounceTimeout i ≠ 0)
    (hf : w.manualDebounceFlag i = false) (hsf : w.signalManualDebounceFlag k = false)
    (hb : w.debounceBuffer i (join p) = some h) : w.emits i k p = [.payload p] := by
  simp [World.emits, World.passes, listens_of_flags hf hsf, notTimeoutGtZero_eq, hpos, hb]

theorem emits_of_listens {w : World} {i : Nat} {k : String} {p : List Int}
    (hf : w.manualDebounceFlag i = false) (hsf : w.signalManualDebounceFlag k = false) :
    ∃ rest, w.emits i k p = .payload p :: rest := by
  simp [World.emits, listens_of_flags hf hsf]

theorem Reachable.emitPayload {w : World} (hw : Reachable w) (k : String) (p : List Int) :
    Reachable (emitPayload k p w) :=
  hw.step (.payload k p)

/-- C2: an object with debounce window greater than 0 and no manual debounce
active receives payload `p`, which sets a timer for the window; when `p` is
delivered again while that timer is still pending (it has not fired), with
no manual debounce active, then both deliveries emit a `payload` event on the
object and the second one emits nothing else, so no `data` event, whatever the
parser returns. -/
theorem C2_second_delivery_within_window (w : World) (hw : Reachable w) (i : Nat)
    (k : String) (p : List Int) (hk : w.signalKey i = some k)
    (hpos : 0 < w.debounceTimeout i)
    (hf : w.manualDebounceFlag i = false) (hsf : w.signalManualDebounceFlag k = false)
    (hnew : w.debounceBuffer i (join p) = none) :
    ∃ τ rest,
      (emitPayload k p w).timers τ =
        some ⟨w.debounceTimeout i, .debounceDelete i (join p)⟩ ∧
      (emitPayload k p w).emitted i = w.emitted i ++ .payload p :: rest ∧
      ∀ es : List Event,
        (run es (emitPayload k p w)).timers τ ≠ none →
        (run es (emitPayload k p w)).manualDebounceFlag i = false →
        (run es (emitPayload k p w)).signalManualDebounceFlag k = false →
        (emitPayload k p (run es (emitPayload k p w))).emitted i =
          (run es (emitPayload k p w)).emitted i ++ [.payload p] := by
  have hne : w.debounceTimeout i ≠ 0 := by omega
  have hinv := hw.heapInv
  obtain ⟨τ, hτ, -, ht⟩ := (emitPayload_buffer hinv i k hk p).2 (arms_of_fresh hne hf hsf hnew)
  obtain ⟨rest, hrest⟩ := emits_of_listens (p := p) hf hsf
  refine ⟨τ, rest, ht, ?_, ?_⟩
  · rw [emitPayload_emitted hinv i k hk p, hrest]
  · intro es hp hf2 hsf2
    have hw1 : Reachable (emitPayload k p w) := hw.emitPayload k p
    have hw2 : Reachable (run es (emitPayload k p w)) := hw1.run es
    have hfr := emitPayload_frame k p w
    have hk1 : (emitPayload k p w).signalKey i = some k := by rw [hfr.1]; exact hk
    obtain ⟨hk2, hd2, -⟩ := run_config es hw1.heapInv i k hk1
    have hτ2 := run_timers_pending es _ τ hτ hp
    rw [ht] at hτ2
    have hb := (hw2.heapInv.timer_buf _ _ _ _ hτ2).2
    rw [emitPayload_emitted hw2.heapInv i k hk2 p]
    have hpos2 : (run es (emitPayload k p w)).debounceTimeout i ≠ 0 := by
      rw [hd2, hfr.2.2.2.1]; exact hne
    rw [emits_of_suppressed hpos2 hf2 hsf2 hb]

/-- C2 on the scenario of the specification: the frame 1011 arrives, and
arrives again while the timer is pending. -/
theorem C2_witness :
    ∃ τ rest,
      (emitPayload "eurodomest" [1, 0, 1, 1] twoSubscribers).timers τ =
        some ⟨twoSubscribers.debounceTimeout 0, .debounceDelete 0 (join [1, 0, 1, 1])⟩ ∧
      (emitPayload "eurodomest" [1, 0, 1, 1] twoSubscribers).emitted 0 =
        twoSubscribers.emitted 0 ++ .payload [1, 0, 1, 1] :: rest ∧
      ∀ es : List Event,
        (run es (emitPayload "eurodomest" [1, 0, 1, 1] twoSubscribers)).timers τ ≠ none →
        (run es (emitPayload "eurodomest" [1, 0, 1, 1] twoSubscribers)).manualDebounceFlag 0 = false →
        (run es (emitPayload "eurodomest" [1, 0, 1, 1] twoSubscribers)).signalManualDebounceFlag
          "eurodomest" = false →
        (emitPayload "eurodomest" [1, 0, 1, 1]
          (run es (emitPayload "eurodomest" [1, 0, 1, 1] twoSubscribers))).emitted 0 =
          (run es (emitPayload "eurodomest" [1, 0, 1, 1] twoSubscribers)).emitted 0 ++
            [.payload [1, 0, 1, 1]] :=
  C2_second_delivery_within_window twoSubscribers ⟨_, rfl⟩ 0 "eurodomest" [1, 0, 1, 1] rfl
    (by decide) rfl rfl rfl

theorem emits_of_fresh {w : World} {i : Nat} {k : String} {p : List Int}
    (hf : w.manualDebounceFlag i = false) (hsf : w.signalManualDebounceFlag k = false)
    (hnew : w.debounceBuffer i (join p) = none)
    (hacc : rejected (w.payloadParser i p) = false) :
    w.emits i k p = [.payload p, .data (w.payloadParser i p)] := by
  simp [World.emits, World.passes, listens_of_flags hf hsf, hnew, hacc]

theorem run_replicate_succ (n : Nat) (e : Event) (w : World) :
    run (List.replicate (n + 1) e) w = step (run (List.replicate n e) w) e := by
  rw [List.replicate_succ', run_append]
  rfl

/-- The state of an object while the same payload keeps arriving inside the
window: nothing but `payload` events, and the timer stays as it was set. -/
theorem run_replicate_payload {w : World} (hw : Reachable w) (i : Nat) (k : String)
    (p : List Int) (τ : Nat) (t : Timer) (hk : w.signalKey i = some k)
    (hpos : w.debounceTimeout i ≠ 0)
    (hf : w.manualDebounceFlag i = false) (hsf : w.signalManualDebounceFlag k = false)
    (hτ : τ < w.nextTimer) (ht : w.timers τ = some t)
    (hb : w.debounceBuffer i (join p) = some τ) (n : Nat) :
    (run (List.replicate n (.payload k p)) w).signalKey = w.signalKey ∧
    (run (List.replicate n (.payload k p)) w).debounceTimeout = w.debounceTimeout ∧
    (run (List.replicate n (.payload k p)) w).payloadParser = w.payloadParser ∧
    (run (List.replicate n (.payload k p)) w).manualDebounceFlag = w.manualDebounceFlag ∧
    (run (List.replicate n (.payload k p)) w).signalManualDebounceFlag =
      w.signalManualDebounceFlag ∧
    τ < (run (List.replicate n (.payload k p)) w).nextTimer ∧
    (run (List.replicate n (.payload k p)) w).timers τ = some t ∧
    (run (List.replicate n (.payload k p)) w).debounceBuffer i (join p) = some τ ∧
    (run (List.replicate n (.payload k p)) w).emitted i =
      w.emitted i ++ List.replicate n (.payload p) := by
  induction n with
  | zero => simp [run, hτ, ht, hb]
  | succ n ih =>
    obtain ⟨a1, a2, a3, a4, a5, a6, a7, a8, a9⟩ := ih
    rw [run_replicate_succ]
    have hwn : Reachable (run (List.replicate n (.payload k p)) w) := hw.run _
    show (emitPayload k p _).signalKey = _ ∧ (emitPayload k p _).debounceTimeout = _ ∧
      (emitPayload k p _).payloadParser = _ ∧ (emitPayload k p _).manualDebounceFlag = _ ∧
      (emitPayload k p _).signalManualDebounceFlag = _ ∧ τ < (emitPayload k p _).nextTimer ∧
      (emitPayload k p _).timers τ = _ ∧ (emitPayload k p _).debounceBuffer i (join p) = _ ∧
      (emitPayload k p _).emitted i = _
    obtain ⟨f1, f2, f3, f4, f5⟩ := emitPayload_frame k p (run (List.replicate n (.payload k p)) w)
    obtain ⟨t1, t2⟩ := emitPayload_timers k p _ τ a6
    have hkn : (run (List.replicate n (.payload k p)) w).signalKey i = some k := by
      rw [a1]; exact hk
    have hfn : (run (List.replicate n (.payload k p)) w).manualDebounceFlag i = false := by
      rw [a4]; exact hf
    have hsfn : (run (List.replicate n (.payload k p)) w).signalManualDebounceFlag k = false := by
      rw [a5]; exact hsf
    have hposn : (run (List.replicate n (.payload k p)) w).debounceTimeout i ≠ 0 := by
      rw [a2]; exact hpos
    have harm : (run (List.replicate n (.payload k p)) w).arms i k p = false := by
      simp [World.arms, a8]
    refine ⟨f1.trans a1, f4.trans a2, f5.trans a3, f2.trans a4, f3.trans a5, t2,
      t1.trans a7, ?_, ?_⟩
    · rw [(emitPayload_buffer hwn.heapInv i k hkn p).1 harm, a8]
    · rw [emitPayload_emitted hwn.heapInv i k hkn p, emits_of_suppressed hposn hfn hsfn a8, a9,
        List.replicate_succ', List.append_assoc]

/-- C3: the debounce is a fixed cool-down. An object with window greater than
0 and no manual debounce receives a payload `p` that its parser accepts and
that is not in its buffer: a timer `τ` is set for the window and `data` is
emitted. However many times `p` is delivered again before `τ` fires, the timer
`τ` stays pending with the delay it was set with (not reset), it is the only
timer for `p` on that object (not duplicated), and those deliveries emit
`payload` only. A delivery of `p` after `τ` has fired emits `data` again. -/
theorem C3_fixed_cooldown_window (w : World) (hw : Reachable w) (i : Nat) (k : String)
    (p : List Int) (hk : w.signalKey i = some k) (hpos : 0 < w.debounceTimeout i)
    (hf : w.manualDebounceFlag i = false) (hsf : w.signalManualDebounceFlag k = false)
    (hnew : w.debounceBuffer i (join p) = none)
    (hacc : rejected (w.payloadParser i p) = false) :
    ∃ τ,
      (emitPayload k p w).timers τ =
        some ⟨w.debounceTimeout i, .debounceDelete i (join p)⟩ ∧
      (emitPayload k p w).emitted i =
        w.emitted i ++ [.payload p, .data (w.payloadParser i p)] ∧
      ∀ n : Nat,
        (run (List.replicate n (.payload k p)) (emitPayload k p w)).timers τ =
          some ⟨w.debounceTimeout i, .debounceDelete i (join p)⟩ ∧
        (∀ h d, (run (List.replicate n (.payload k p)) (emitPayload k p w)).timers h =
          some ⟨d, .debounceDelete i (join p)⟩ → h = τ) ∧
        (run (List.replicate n (.payload k p)) (emitPayload k p w)).emitted i =
          (emitPayload k p w).emitted i ++ List.replicate n (.payload p) ∧
        (emitPayload k p (timerFires τ
            (run (List.replicate n (.payload k p)) (emitPayload k p w)))).emitted i =
          (run (List.replicate n (.payload k p)) (emitPayload k p w)).emitted i ++
            [.payload p, .data (w.payloadParser i p)] := by
  have hne : w.debounceTimeout i ≠ 0 := by omega
  have hinv := hw.heapInv
  obtain ⟨τ, hτ, hbuf, ht⟩ :=
    (emitPayload_buffer hinv i k hk p).2 (arms_of_fresh hne hf hsf hnew)
  have hw1 : Reachable (emitPayload k p w) := hw.emitPayload k p
  obtain ⟨f1, f2, f3, f4, f5⟩ := emitPayload_frame k p w
  have hk1 : (emitPayload k p w).signalKey i = some k := by rw [f1]; exact hk
  have hb1 : (emitPayload k p w).debounceBuffer i (join p) = some τ := by
    rw [hbuf]; simp
  refine ⟨τ, ht, ?_, fun n => ?_⟩
  · rw [emitPayload_emitted hinv i k hk p, emits_of_fresh hf hsf hnew hacc]
  · obtain ⟨a1, a2, a3, a4, a5, a6, a7, a8, a9⟩ :=
      run_replicate_payload hw1 i k p τ _ hk1 (by rw [f4]; exact hne) (by rw [f2]; exact hf)
        (by rw [f3]; exact hsf) hτ ht hb1 n
    have hwn : Reachable (run (List.replicate n (.payload k p)) (emitPayload k p w)) :=
      hw1.run _
    refine ⟨a7, ?_, a9, ?_⟩
    · intro h d hh
      have := (hwn.heapInv.timer_buf _ _ _ _ hh).2
      rw [a8] at this
      exact (Option.some.inj this).symm
    · have hfire : Reachable (timerFires τ
          (run (List.replicate n (.payload k p)) (emitPayload k p w))) :=
        hwn.step (.timer τ)
      have hkf : (timerFires τ
          (run (List.replicate n (.payload k p)) (emitPayload k p w))).signalKey i = some k := by
        simp only [timerFires, a7]
        rw [a1]; exact hk1
      rw [emitPayload_emitted hfire.heapInv i k hkf p]
      have e1 : (timerFires τ
          (run (List.replicate n (.payload k p)) (emitPayload k p w))).emitted i =
          (run (List.replicate n (.payload k p)) (emitPayload k p w)).emitted i := by
        simp only [timerFires, a7]
      have e2 : (timerFires τ
          (run (List.replicate n (.payload k p)) (emitPayload k p w))).emits i k p =
          [.payload p, .data (w.payloadParser i p)] := by
        have := emits_of_fresh (w := timerFires τ
          (run (List.replicate n (.payload k p)) (emitPayload k p w))) (i := i) (k := k) (p := p)
          (by simp only [timerFires, a7]; rw [a4, f2]; exact hf)
          (by simp only [timerFires, a7]; rw [a5, f3]; exact hsf)
          (by simp only [timerFires, a7]; simp)
          (by simp only [timerFires, a7]; rw [a3, f5]; exact hacc)
        rw [this]
        simp only [timerFires, a7]
        rw [a3, f5]
      rw [e1, e2]
/-- C3 on the scenario of the specification, for the frame 1011. -/
theorem C3_witness :
    ∃ τ,
      (emitPayload "eurodomest" [1, 0, 1, 1] twoSubscribers).timers τ =
        some ⟨twoSubscribers.debounceTimeout 0, .debounceDelete 0 (join [1, 0, 1, 1])⟩ ∧
      (emitPayload "eurodomest" [1, 0, 1, 1] twoSubscribers).emitted 0 =
        twoSubscribers.emitted 0 ++
          [.payload [1, 0, 1, 1], .data (twoSubscribers.payloadParser 0 [1, 0, 1, 1])] ∧
      ∀ n : Nat,
        (run (List.replicate n (.payload "eurodomest" [1, 0, 1, 1]))
            (emitPayload "eurodomest" [1, 0, 1, 1] twoSubscribers)).timers τ =
          some ⟨twoSubscribers.debounceTimeout 0, .debounceDelete 0 (join [1, 0, 1, 1])⟩ ∧
        (∀ h d, (run (List.replicate n (.payload "eurodomest" [1, 0, 1, 1]))
            (emitPayload "eurodomest" [1, 0, 1, 1] twoSubscribers)).timers h =
          some ⟨d, .debounceDelete 0 (join [1, 0, 1, 1])⟩ → h = τ) ∧
        (run (List.replicate n (.payload "eurodomest" [1, 0, 1, 1]))
            (emitPayload "eurodomest" [1, 0, 1, 1] twoSubscribers)).emitted 0 =
          (emitPayload "eurodomest" [1, 0, 1, 1] twoSubscribers).emitted 0 ++
            List.replicate n (.payload [1, 0, 1, 1]) ∧
        (emitPayload "eurodomest" [1, 0, 1, 1] (timerFires τ
            (run (List.replicate n (.payload "eurodomest" [1, 0, 1, 1]))
              (emitPayload "eurodomest" [1, 0, 1, 1] twoSubscribers)))).emitted 0 =
          (run (List.replicate n (.payload "eurodomest" [1, 0, 1, 1]))
            (emitPayload "eurodomest" [1, 0, 1, 1] twoSubscribers)).emitted 0 ++
            [.payload [1, 0, 1, 1], .data (twoSubscribers.payloadParser 0 [1, 0, 1, 1])] :=
  C3_fixed_cooldown_window twoSubscribers ⟨_, rfl⟩ 0 "eurodomest" [1, 0, 1, 1] rfl (by decide)
    rfl rfl rfl rfl
theorem emitPayloadSend_emitted {w : World} (hw : HeapInv w) (k : String) (p : List Int)
    (hs : w.signals k = true) (j : Nat) :
    (emitPayloadSend k p w).emitted j =
      w.emitted j ++ (if j ∈ w.payloadSendListeners k then [.payload_send p] else []) := by
  simp only [emitPayloadSend, hs, if_true]
  exact foldl_emit_emitted _ _ w (hw.lis_nodup k).2 j

/-- C7: an object of key `k` calls `send(p)`; when, with that call still in
flight, the hardware `tx` callback reports success (a falsy error) with
`result`, one `payload_send` event carrying `p` is emitted on every object of
key `k` (the sender included), the promise returned by `send` is fulfilled
with `result`, and no `error` event is emitted on any object. -/
theorem C7_send_success_is_broadcast (w : World) (hw : Reachable w) (i : Nat) (k : String)
    (p : List Int) (hk : w.signalKey i = some k) (es : List Event) (err result : JsVal)
    (hpend : (run es (send i p w)).sendCalls[w.sendCalls.length]? = some ⟨i, p, .pending⟩)
    (herr : err.truthy = false) :
    (send i p w).sendCalls = w.sendCalls ++ [⟨i, p, .pending⟩] ∧
    (∀ j, (run es (send i p w)).signalKey j = some k →
      (txCallback w.sendCalls.length err result (run es (send i p w))).emitted j =
        (run es (send i p w)).emitted j ++ [.payload_send p]) ∧
    (txCallback w.sendCalls.length err result (run es (send i p w))).emitted i =
      (run es (send i p w)).emitted i ++ [.payload_send p] ∧
    (txCallback w.sendCalls.length err result (run es (send i p w))).sendCalls[
        w.sendCalls.length]? = some ⟨i, p, .fulfilled result⟩ ∧
    (∀ j, ∃ new,
      (txCallback w.sendCalls.length err result (run es (send i p w))).emitted j =
        (run es (send i p w)).emitted j ++ new ∧ ∀ ev ∈ new, ev.isError = false) := by
  have hw1 : Reachable (send i p w) := hw.step (.send i p)
  have hw2 : Reachable (run es (send i p w)) := hw1.run es
  have hk1 : (send i p w).signalKey i = some k := by simp [send, hk]
  have hk2 := (run_config es hw1.heapInv i k hk1).1
  have hs := (hw2.heapInv.inst_sig i k hk2).1
  have hlen : w.sendCalls.length < (run es (send i p w)).sendCalls.length := by
    by_contra hcon
    rw [List.getElem?_eq_none (by omega)] at hpend
    cases hpend
  have hemit : ∀ j, (txCallback w.sendCalls.length err result (run es (send i p w))).emitted j =
      (emitPayloadSend k p (run es (send i p w))).emitted j := by
    intro j
    simp only [txCallback, hpend, PState.isPending, herr, hk2, if_true, Bool.false_eq_true,
      if_false]
  have hall : ∀ j, (run es (send i p w)).signalKey j = some k →
      (txCallback w.sendCalls.length err result (run es (send i p w))).emitted j =
        (run es (send i p w)).emitted j ++ [.payload_send p] := by
    intro j hj
    rw [hemit, emitPayloadSend_emitted hw2.heapInv k p hs j]
    simp [(hw2.heapInv.inst_sig j k hj).2.2]
  refine ⟨by simp [send, hk], hall, hall i hk2, ?_, ?_⟩
  · simp only [txCallback, hpend, PState.isPending, herr, hk2, if_true, Bool.false_eq_true,
      if_false]
    rw [emitPayloadSend_frame]
    simp [hlen]
  · intro j
    rw [hemit, emitPayloadSend_emitted hw2.heapInv k p hs j]
    refine ⟨_, rfl, ?_⟩
    intro ev hev
    split_ifs at hev
    · simp only [List.mem_singleton] at hev
      subst hev
      rfl
    · simp at hev

/-- C7 on the scenario of the specification: slot 0 sends the frame 10 and the
hardware answers at once. -/
theorem C7_witness :
    (send 0 [1, 0] twoSubscribers).sendCalls = twoSubscribers.sendCalls ++ [⟨0, [1, 0], .pending⟩] ∧
    (∀ j, (run [] (send 0 [1, 0] twoSubscribers)).signalKey j = some "eurodomest" →
      (txCallback twoSubscribers.sendCalls.length .null (.bool true)
        (run [] (send 0 [1, 0] twoSubscribers))).emitted j =
        (run [] (send 0 [1, 0] twoSubscribers)).emitted j ++ [.payload_send [1, 0]]) ∧
    (txCallback twoSubscribers.sendCalls.length .null (.bool true)
        (run [] (send 0 [1, 0] twoSubscribers))).emitted 0 =
      (run [] (send 0 [1, 0] twoSubscribers)).emitted 0 ++ [.payload_send [1, 0]] ∧
    (txCallback twoSubscribers.sendCalls.length .null (.bool true)
        (run [] (send 0 [1, 0] twoSubscribers))).sendCalls[twoSubscribers.sendCalls.length]? =
      some ⟨0, [1, 0], .fulfilled (.bool true)⟩ ∧
    (∀ j, ∃ new,
      (txCallback twoSubscribers.sendCalls.length .null (.bool true)
        (run [] (send 0 [1, 0] twoSubscribers))).emitted j =
        (run [] (send 0 [1, 0] twoSubscribers)).emitted j ++ new ∧ ∀ ev ∈ new, ev.isError = false) :=
  C7_send_success_is_broadcast twoSubscribers ⟨_, rfl⟩ 0 "eurodomest" [1, 0] rfl [] .null
    (.bool true) rfl rfl
theorem regInv_init : RegInv World.init := by
  constructor <;> simp [World.init, hardwareRegisterCount]

theorem regInv_of_eq {w w' : World} (h : RegInv w) (h1 : w'.signals = w.signals)
    (h2 : w'.registerLock = w.registerLock) (h3 : w'.registerPromises = w.registerPromises)
    (h4 : w'.registerRequests = w.registerRequests) (h5 : w'.registerFired = w.registerFired)
    (h6 : w'.registerCalls = w.registerCalls) : RegInv w' := by
  obtain ⟨a1, a2, a3, a4, a5, a6, a7, a8⟩ := h
  constructor
  · rw [h1, h2]; exact a1
  · simp only [hardwareRegisterCount, h2, h4]; exact a2
  · rw [h3, h4]; exact a3
  · rw [h2, h3]; exact a4
  · rw [h4, h5]; exact a5
  · rw [h3, h6]; exact a6
  · rw [h2, h6]; exact a7
  · simp only [promiseState, h5, h6]; exact a8

theorem foldl_payloadHandler_world (p : List Int) (L : List Nat) :
    ∀ w : World,
      L.foldl (fun w i => payloadHandler i p w) w =
        { w with
          emitted := (L.foldl (fun w i => payloadHandler i p w) w).emitted
          debounceBuffer := (L.foldl (fun w i => payloadHandler i p w) w).debounceBuffer
          timers := (L.foldl (fun w i => payloadHandler i p w) w).timers
          nextTimer := (L.foldl (fun w i => payloadHandler i p w) w).nextTimer } := by
  induction L with
  | nil => intro w; rfl
  | cons j L ih =>
    intro w
    simp only [List.foldl_cons]
    rw [ih (payloadHandler j p w)]
    rw [payloadHandler_eq']

theorem emitPayload_world (k : String) (p : List Int) (w : World) :
    emitPayload k p w =
      { w with
        emitted := (emitPayload k p w).emitted
        debounceBuffer := (emitPayload k p w).debounceBuffer
        timers := (emitPayload k p w).timers
        nextTimer := (emitPayload k p w).nextTimer } := by
  unfold emitPayload
  split
  · exact foldl_payloadHandler_world p _ w
  · rfl

theorem regInv_emitPayload {w : World} (h : RegInv w) (k : String) (p : List Int) :
    RegInv (emitPayload k p w) := by
  rw [emitPayload_world]
  exact regInv_of_eq h rfl rfl rfl rfl rfl rfl

theorem regInv_manualDebounce {w : World} (h : RegInv w) (i : Nat) (t : Int) (a : Bool) :
    RegInv (manualDebounce i t a w) := by
  unfold manualDebounce
  split
  · exact h
  · split <;> exact regInv_of_eq h rfl rfl rfl rfl rfl rfl

theorem regInv_send {w : World} (h : RegInv w) (i : Nat) (p : List Int) :
    RegInv (send i p w) := by
  unfold send
  split
  · exact h
  · exact regInv_of_eq h rfl rfl rfl rfl rfl rfl

theorem regInv_timerFires {w : World} (h : RegInv w) (t : Nat) :
    RegInv (timerFires t w) := by
  unfold timerFires
  split
  · exact h
  · split <;> exact regInv_of_eq h rfl rfl rfl rfl rfl rfl

theorem regInv_txCallback {w : World} (h : RegInv w) (n : Nat) (err result : JsVal) :
    RegInv (txCallback n err result w) := by
  unfold txCallback
  split
  · exact h
  · split
    · split
      · exact regInv_of_eq h rfl rfl rfl rfl rfl rfl
      · split
        · exact h
        · rw [emitPayloadSend_frame]
          exact regInv_of_eq h rfl rfl rfl rfl rfl rfl
    · exact h

theorem regInv_construct {w : World} (h : RegInv w) (k : String)
    (parser : Option (List Int → JsVal)) (d : JsNumber) :
    RegInv (construct k parser d w) := by
  obtain ⟨a1, a2, a3, a4, a5, a6, a7, a8⟩ := h
  have hl : ∀ k', ((construct k parser d w).registerLock k').getD [] =
      (w.registerLock k').getD [] := by
    intro k'
    simp only [construct]
    split_ifs with hs
    · rfl
    · by_cases e : k' = k
      · subst e
        have : w.registerLock k' = none := by
          cases hl : w.registerLock k' with
          | none => rfl
          | some L =>
            have := (a1 k').2 (by simp [hl])
            exact absurd this hs
        simp [this]
      · simp [e]
  constructor
  · intro k'
    simp only [construct, Function.update_apply]
    by_cases e : k' = k
    · subst e
      simp only [if_true, true_iff]
      split_ifs with hs
      · exact (a1 k').1 hs
      · simp
    · simp only [e, if_false]
      split_ifs
      · exact a1 k'
      · simp only [Function.update_apply, e, if_false]
        exact a1 k'
  · intro k'
    rw [hl]
    exact a2 k'
  · exact a3
  · intro k'
    rw [hl]
    exact a4 k'
  · exact a5
  · exact a6
  · intro c hc
    rw [hl]
    exact a7 c hc
  · exact a8
theorem promiseState_of_none {w : World} {n : Nat} (h : w.registerFired n = none) :
    promiseState w n = .pending := by
  simp [promiseState, h]

/-- The first `register` call for a key: the lock set is empty, so the
hardware is asked to register and a new promise is stored. -/
theorem register_eq_first {w : World} (hw : RegInv w) (i : Nat) (k : String)
    (cb : Option (List JsVal → JsVal)) (hk : w.signalKey i = some k)
    (hl : w.registerLock k = some []) :
    register i cb w =
      { w with
        registerRequests := w.registerRequests ++ [⟨k, i⟩]
        registerPromises := Function.update w.registerPromises k
          (some w.registerRequests.length)
        registerLock := Function.update w.registerLock k (some [i])
        registerCalls := w.registerCalls ++
          [⟨i, k, w.registerRequests.length, cb.getD (fun _ => JsVal.null), [], .pending⟩] } := by
  have hf : w.registerFired w.registerRequests.length = none := by
    cases e : w.registerFired w.registerRequests.length with
    | none => rfl
    | some v => exact absurd (hw.fired_lt _ _ e) (lt_irrefl _)
  simp [register, hk, hl, setAdd, promiseState, hf, react, PState.isPending]

/-- A later `register` call for a key: the lock set is not empty, so the
stored promise is reused. -/
theorem register_eq_later {w : World} (i : Nat) (k : String)
    (cb : Option (List JsVal → JsVal)) (L : List Nat) (n : Nat)
    (hk : w.signalKey i = some k) (hl : w.registerLock k = some L) (hne : L ≠ [])
    (hp : w.registerPromises k = some n) :
    register i cb w =
      { w with
        registerLock := Function.update w.registerLock k (some (setAdd L i))
        registerCalls := w.registerCalls ++
          [react (promiseState w n)
            ⟨i, k, n, cb.getD (fun _ => JsVal.null), [], .pending⟩] } := by
  have : L.length ≠ 0 := by
    intro h; exact hne (List.length_eq_zero.mp h)
  simp [register, hk, hl, this, hp, promiseState]

theorem setAdd_ne_nil (L : List Nat) (i : Nat) : setAdd L i ≠ [] := by
  unfold setAdd
  split_ifs with h
  · intro e; rw [e] at h; simp at h
  · simp

theorem react_settledAs (st : PState) (i : Nat) (k : String) (n : Nat)
    (cb : List JsVal → JsVal) :
    (react st ⟨i, k, n, cb, [], .pending⟩).settledAs st := by
  cases st <;> simp [react, PState.isPending, RegisterCall.settledAs]

theorem react_signalKey (st : PState) (c : RegisterCall) :
    (react st c).signalKey = c.signalKey ∧ (react st c).promise = c.promise ∧
      (react st c).inst = c.inst ∧ (react st c).callback = c.callback := by
  unfold react
  split
  · cases st <;> exact ⟨rfl, rfl, rfl, rfl⟩
  · exact ⟨rfl, rfl, rfl, rfl⟩

theorem no_request_of_count_zero {w : World} {k : String}
    (h : hardwareRegisterCount w k = 0) : ∀ r ∈ w.registerRequests, r.signalKey ≠ k := by
  intro r hr e
  have : r ∈ w.registerRequests.filter (fun r => r.signalKey == k) := by
    simp [List.mem_filter, hr, e]
  rw [List.length_eq_zero.mp h] at this
  simp at this

theorem regInv_register {w : World} (hw : RegInv w) (i : Nat)
    (cb : Option (List JsVal → JsVal)) : RegInv (register i cb w) := by
  cases hk : w.signalKey i with
  | none => simpa [register, hk] using hw
  | some k =>
    cases hl : w.registerLock k with
    | none => simpa [register, hk, hl] using hw
    | some L =>
      by_cases hL : L = []
      · subst hL
        rw [register_eq_first hw i k cb hk hl]
        obtain ⟨a1, a2, a3, a4, a5, a6, a7, a8⟩ := hw
        have hc0 : hardwareRegisterCount w k = 0 := by
          rw [a2 k]; simp [hl]
        have hnr := no_request_of_count_zero hc0
        have hnc : ∀ c ∈ w.registerCalls, c.signalKey ≠ k := by
          intro c hc e
          have := a7 c hc
          rw [e, hl] at this
          simp at this
        constructor
        · intro k'
          simp only [Function.update_apply]
          split_ifs with e
          · subst e
            simp only [Option.isSome_some, iff_true]
            exact (a1 k').2 (by simp [hl])
          · exact a1 k'
        · intro k'
          simp only [hardwareRegisterCount, List.filter_append, List.length_append,
            Function.update_apply]
          by_cases e : k' = k
          · subst e
            have := a2 k'
            simp only [hardwareRegisterCount, hl, Option.getD_some, if_true] at this
            simp [this]
          · have e' : k ≠ k' := fun h => e h.symm
            have := a2 k'
            simp only [hardwareRegisterCount] at this
            simp [e, e', this]
        · intro n r hn
          simp only [Function.update_apply]
          by_cases hlt : n < w.registerRequests.length
          · rw [List.getElem?_append_left hlt] at hn
            have hmem : r ∈ w.registerRequests := List.getElem?_mem hn
            simp only [hnr r hmem, if_false]
            exact a3 n r hn
          · rw [List.getElem?_append_right (by omega)] at hn
            have : n - w.registerRequests.length = 0 := by
              by_contra hne
              rw [List.getElem?_eq_none (by simp; omega)] at hn
              cases hn
            rw [this] at hn
            simp only [List.getElem?_cons_zero, Option.some.injEq] at hn
            subst hn
            simp only [if_true, Option.some.injEq]
            omega
        · intro k' hk'
          simp only [Function.update_apply] at hk' ⊢
          split_ifs with e
          · simp
          · simp only [e, if_false] at hk'
            exact a4 k' hk'
        · intro n e hn
          have := a5 n e hn
          simp only [List.length_append, List.length_singleton]
          omega
        · intro c hc
          simp only [List.mem_append, List.mem_singleton] at hc
          simp only [Function.update_apply]
          rcases hc with hc | hc
          · simp only [hnc c hc, if_false]
            exact a6 c hc
          · subst hc
            simp
        · intro c hc
          simp only [List.mem_append, List.mem_singleton] at hc
          simp only [Function.update_apply]
          rcases hc with hc | hc
          · simp only [hnc c hc, if_false]
            exact a7 c hc
          · subst hc
            simp
        · intro c hc
          simp only [List.mem_append, List.mem_singleton] at hc
          rcases hc with hc | hc
          · exact a8 c hc
          · subst hc
            have hf : w.registerFired w.registerRequests.length = none := by
              cases e : w.registerFired w.registerRequests.length with
              | none => rfl
              | some v => exact absurd (a5 _ _ e) (lt_irrefl _)
            simp [promiseState, hf, RegisterCall.settledAs]
      · have hp := hw.lock_promise k (by simpa [hl] using hL)
        obtain ⟨n, hn⟩ := Option.isSome_iff_exists.mp hp
        rw [register_eq_later i k cb L n hk hl hL hn]
        obtain ⟨a1, a2, a3, a4, a5, a6, a7, a8⟩ := hw
        constructor
        · intro k'
          simp only [Function.update_apply]
          split_ifs with e
          · subst e
            simp only [Option.isSome_some, iff_true]
            exact (a1 k').2 (by simp [hl])
          · exact a1 k'
        · intro k'
          simp only [Function.update_apply]
          by_cases e : k' = k
          · subst e
            have := a2 k'
            simp only [hl, Option.getD_some, hL, if_false] at this
            simp only [hardwareRegisterCount] at this ⊢
            simp [this, setAdd_ne_nil]
          · have := a2 k'
            simp only [hardwareRegisterCount] at this ⊢
            simp [e, this]
        · exact a3
        · intro k' hk'
          by_cases e : k' = k
          · subst e; exact hp
          · simp only [Function.update_apply, e, if_false] at hk'
            exact a4 k' hk'
        · exact a5
        · intro c hc
          simp only [List.mem_append, List.mem_singleton] at hc
          rcases hc with hc | hc
          · exact a6 c hc
          · subst hc
            rw [(react_signalKey _ _).1, (react_signalKey _ _).2.1]
            exact hn
        · intro c hc
          simp only [List.mem_append, List.mem_singleton] at hc
          simp only [Function.update_apply]
          rcases hc with hc | hc
          · split_ifs with e
            · simp [setAdd_ne_nil]
            · exact a7 c hc
          · subst hc
            rw [(react_signalKey _ _).1]
            simp [setAdd_ne_nil]
        · intro c hc
          simp only [List.mem_append, List.mem_singleton] at hc
          rcases hc with hc | hc
          · exact a8 c hc
          · subst hc
            rw [(react_signalKey _ _).2.1]
            exact react_settledAs _ _ _ _ _
/-- The hardware callback of a request that has not fired yet. -/
theorem registerCallback_eq {w : World} (n : Nat) (err : JsVal) (r : RegisterRequest)
    (hr : w.registerRequests[n]? = some r) (hf : w.registerFired n = none) :
    registerCallback n err w =
      { w with
        registerFired := Function.update w.registerFired n (some err)
        emitted :=
          if err.truthy then Function.update w.emitted r.inst (w.emitted r.inst ++ [.error err])
          else w.emitted
        registerCalls := w.registerCalls.map (fun c =>
          if c.promise = n then
            react (if err.truthy then .rejected err else .fulfilled .undefined) c
          else c) } := by
  unfold registerCallback
  simp only [hr, hf]
  by_cases he : err.truthy = true
  · simp [he, emit, promiseState]
  · simp [he, promiseState]

theorem react_of_pending (st : PState) (c : RegisterCall) (h : c.settledAs .pending) :
    (react st c).settledAs st := by
  obtain ⟨h1, h2⟩ := h
  cases st <;> simp [react, PState.isPending, RegisterCall.settledAs, h1, h2]

theorem ite_react_fields (st : PState) (c : RegisterCall) (n : Nat) :
    (if c.promise = n then react st c else c).signalKey = c.signalKey ∧
      (if c.promise = n then react st c else c).promise = c.promise := by
  split_ifs
  · exact ⟨(react_signalKey _ _).1, (react_signalKey _ _).2.1⟩
  · exact ⟨rfl, rfl⟩

theorem regInv_registerCallback {w : World} (hw : RegInv w) (n : Nat) (err : JsVal) :
    RegInv (registerCallback n err w) := by
  cases hr : w.registerRequests[n]? with
  | none => simpa [registerCallback, hr] using hw
  | some r =>
    cases hf : w.registerFired n with
    | some e => simpa [registerCallback, hr, hf] using hw
    | none =>
      rw [registerCallback_eq n err r hr hf]
      obtain ⟨a1, a2, a3, a4, a5, a6, a7, a8⟩ := hw
      refine ⟨a1, a2, a3, a4, ?_, ?_, ?_, ?_⟩
      · intro m e hm
        simp only [Function.update_apply] at hm
        split_ifs at hm with h
        · subst h
          exact (List.getElem?_eq_some.mp hr).1
        · exact a5 m e hm
      · intro c hc
        simp only [List.mem_map] at hc
        obtain ⟨c0, hc0, rfl⟩ := hc
        show w.registerPromises _ = _
        rw [(ite_react_fields _ _ _).1, (ite_react_fields _ _ _).2]
        exact a6 c0 hc0
      · intro c hc
        simp only [List.mem_map] at hc
        obtain ⟨c0, hc0, rfl⟩ := hc
        show (w.registerLock _).getD [] ≠ []
        rw [(ite_react_fields _ _ _).1]
        exact a7 c0 hc0
      · intro c hc
        simp only [List.mem_map] at hc
        obtain ⟨c0, hc0, rfl⟩ := hc
        have h0 := a8 c0 hc0
        by_cases h : c0.promise = n
        · simp only [h, if_true]
          rw [(react_signalKey _ _).2.1, h]
          have hps : promiseState w n = .pending := promiseState_of_none hf
          rw [h, hps] at h0
          have := react_of_pending (if err.truthy then .rejected err else .fulfilled .undefined)
            c0 h0
          simpa [promiseState] using this
        · simp only [h, if_false]
          have : promiseState
              { w with
                registerFired := Function.update w.registerFired n (some err)
                emitted :=
                  if err.truthy then
                    Function.update w.emitted r.inst (w.emitted r.inst ++ [.error err])
                  else w.emitted
                registerCalls := w.registerCalls.map (fun c =>
                  if c.promise = n then
                    react (if err.truthy then .rejected err else .fulfilled .undefined) c
                  else c) } c0.promise = promiseState w c0.promise := by
            simp [promiseState, Function.update_apply, h]
          rw [this]
          exact h0

theorem regInv_step {w : World} (hw : RegInv w) (e : Event) : RegInv (step w e) := by
  cases e with
  | construct k p d => exact regInv_construct hw k p d
  | register i cb => exact regInv_register hw i cb
  | unregister i => exact hw
  | manualDebounce i t a => exact regInv_manualDebounce hw i t a
  | send i p => exact regInv_send hw i p
  | payload k p => exact regInv_emitPayload hw k p
  | timer h => exact regInv_timerFires hw h
  | registerCallback n err => exact regInv_registerCallback hw n err
  | txCallback n err result => exact regInv_txCallback hw n err result

theorem regInv_run (es : List Event) : ∀ {w : World}, RegInv w → RegInv (run es w) := by
  induction es with
  | nil => intro w hw; exact hw
  | cons e es ih => intro w hw; exact ih (regInv_step hw e)

theorem Reachable.regInv {w : World} (hw : Reachable w) : RegInv w := by
  obtain ⟨es, rfl⟩ := hw
  exact regInv_run es regInv_init
theorem step_lock_nonempty {w : World} (hw : RegInv w) (e : Event) (k : String)
    (h : (w.registerLock k).getD [] ≠ []) : ((step w e).registerLock k).getD [] ≠ [] := by
  cases e with
  | construct k' p d =>
    simp only [step, construct]
    split_ifs with hs
    · exact h
    · by_cases e : k = k'
      · subst e
        cases hl : w.registerLock k with
        | none => rw [hl] at h; simp at h
        | some L => exact absurd ((hw.sig_lock k).2 (by simp [hl])) hs
      · simpa [Function.update_apply, e] using h
  | register i cb =>
    simp only [step]
    cases hk : w.signalKey i with
    | none => simpa [register, hk] using h
    | some k' =>
      cases hl : w.registerLock k' with
      | none => simpa [register, hk, hl] using h
      | some L =>
        by_cases hL : L = []
        · subst hL
          rw [register_eq_first hw i k' cb hk hl]
          simp only [Function.update_apply]
          split_ifs
          · simp
          · exact h
        · obtain ⟨n, hn⟩ := Option.isSome_iff_exists.mp
            (hw.lock_promise k' (by simpa [hl] using hL))
          rw [register_eq_later i k' cb L n hk hl hL hn]
          simp only [Function.update_apply]
          split_ifs
          · simpa using setAdd_ne_nil L i
          · exact h
  | unregister i => exact h
  | manualDebounce i t a =>
    simp only [step, manualDebounce]
    split
    · exact h
    · split <;> exact h
  | send i p =>
    simp only [step, send]
    split <;> exact h
  | payload k' p =>
    simp only [step]
    rw [emitPayload_world]
    exact h
  | timer t =>
    simp only [step, timerFires]
    split
    · exact h
    · split <;> exact h
  | registerCallback n err =>
    simp only [step, registerCallback]
    split
    · exact h
    · split
      · exact h
      · dsimp only
        split <;> exact h
  | txCallback n err result =>
    simp only [step, txCallback]
    split
    · exact h
    · split
      · split
        · exact h
        · split
          · exact h
          · rw [emitPayloadSend_frame]
            exact h
      · exact h

theorem run_lock_nonempty (es : List Event) :
    ∀ {w : World}, RegInv w → ∀ k, (w.registerLock k).getD [] ≠ [] →
      ((run es w).registerLock k).getD [] ≠ [] := by
  induction es with
  | nil => intro w _ k h; exact h
  | cons e es ih =>
    intro w hw k h
    exact ih (regInv_step hw e) k (step_lock_nonempty hw e k h)

theorem lock_of_instance {w : World} (hw : Reachable w) (i : Nat) (k : String)
    (hk : w.signalKey i = some k) : ∃ L, w.registerLock k = some L :=
  Option.isSome_iff_exists.mp ((hw.regInv.sig_lock k).1 (hw.heapInv.inst_sig i k hk).1)

theorem register_lock_nonempty {w : World} (hw : Reachable w) (i : Nat) (k : String)
    (cb : Option (List JsVal → JsVal)) (hk : w.signalKey i = some k) :
    ((register i cb w).registerLock k).getD [] ≠ [] := by
  obtain ⟨L, hl⟩ := lock_of_instance hw i k hk
  by_cases hL : L = []
  · subst hL
    rw [register_eq_first hw.regInv i k cb hk hl]
    simp
  · obtain ⟨n, hn⟩ := Option.isSome_iff_exists.mp
      (hw.regInv.lock_promise k (by simpa [hl] using hL))
    rw [register_eq_later i k cb L n hk hl hL hn]
    simpa using setAdd_ne_nil L i

/-- C1: take any trace of the module in which an object of signal key `k`
calls `register()`; whatever happens before that call and after it (other
`register` calls by any number of objects of `k`, `unregister` calls, the
hardware callback firing with success or with an error, in any order), the
hardware register function of the shared handle of `k` has been invoked
exactly once. -/
theorem C1_hardware_register_invoked_exactly_once (es1 es2 : List Event) (i : Nat)
    (k : String) (cb : Option (List JsVal → JsVal))
    (hk : (run es1 World.init).signalKey i = some k) :
    hardwareRegisterCount (run (es1 ++ .register i cb :: es2) World.init) k = 1 := by
  have hw : Reachable (run es1 World.init) := ⟨es1, rfl⟩
  have hw1 : Reachable (register i cb (run es1 World.init)) := hw.step (.register i cb)
  have h1 := register_lock_nonempty hw i k cb hk
  have h2 := run_lock_nonempty es2 hw1.regInv k h1
  have hw2 : Reachable (run es2 (register i cb (run es1 World.init))) := hw1.run es2
  have e : run (es1 ++ .register i cb :: es2) World.init =
      run es2 (register i cb (run es1 World.init)) := by
    rw [run_append]; rfl
  rw [e, hw2.regInv.count k]
  simp [h2]

/-- C1 on a trace with two subscribers: both register, the second one twice,
with an `unregister` and the hardware callback in between. -/
theorem C1_witness :
    hardwareRegisterCount
      (run ([.construct "eurodomest" none (.num 500), .construct "eurodomest" none (.num 500),
          .register 1 none] ++
        .register 0 none ::
          [.unregister 0, .register 1 none, .registerCallback 0 .null, .register 0 none])
        World.init) "eurodomest" = 1 :=
  C1_hardware_register_invoked_exactly_once
    [.construct "eurodomest" none (.num 500), .construct "eurodomest" none (.num 500),
      .register 1 none] _ 0 "eurodomest" none rfl
/-- With a debounce window of 0 (the constructor was given 0 or a value that
is not a number) the debounce filter is skipped: a delivery that manual
debounce does not stop and whose parser result is valid emits `payload` and
`data`, and the debounce buffer of the object is left as it was. -/
theorem debounce_disabled_of_zero (w : World) (hw : Reachable w) (i : Nat) (k : String)
    (p : List Int) (hk : w.signalKey i = some k) (hz : w.debounceTimeout i = 0)
    (hf : w.manualDebounceFlag i = false) (hsf : w.signalManualDebounceFlag k = false)
    (hacc : rejected (w.payloadParser i p) = false) :
    (emitPayload k p w).emitted i =
      w.emitted i ++ [.payload p, .data (w.payloadParser i p)] ∧
    (emitPayload k p w).debounceBuffer i = w.debounceBuffer i := by
  constructor
  · rw [emitPayload_emitted hw.heapInv i k hk p]
    simp [World.emits, World.passes, listens_of_flags hf hsf, notTimeoutGtZero_eq, hz, hacc]
  · exact (emitPayload_buffer hw.heapInv i k hk p).1
      (by simp [World.arms, notTimeoutGtZero_eq, hz])

theorem orZero_nan : JsNumber.nan.orZero = 0 := rfl

theorem orZero_zero : (JsNumber.num 0).orZero = 0 := rfl

end Signal433
